import Mathlib

/-!
Shallow embedding of the figma-to-juce code generator core.

Numbers are modelled as exact rationals (the source uses JS numbers; all
claims here are about values far from double rounding boundaries).
Generated C++ code is modelled as the literal strings the source emits.
-/

/- Batteries seals rational arithmetic against unfolding; concrete
evaluation of the embedded definitions (decide on closed goals) needs the
standard definitional behaviour back. -/
attribute [local semireducible] Rat.add Rat.mul Rat.inv Rat.sub Rat.ofScientific

namespace FigmaToJuce

/- ── utils/math.ts ─────────────────────────────────────────────────── -/

/-- JS Math.round: round half toward positive infinity. -/
def jsRound (v : ℚ) : ℤ := ⌊v + 1 / 2⌋

/-- roundTo(value, decimals) = Math.round(value * 10^d) / 10^d. -/
def roundTo (v : ℚ) (d : ℕ) : ℚ := (jsRound (v * 10 ^ d) : ℚ) / 10 ^ d

/-- JS whitespace characters that occur in the generated text. -/
def jsWs (c : Char) : Bool := c = ' ' || c = '\n' || c = '\t' || c = '\r'

/-- JS String.prototype.trimEnd. -/
def trimEnd (s : String) : String := ⟨((s.data.reverse).dropWhile jsWs).reverse⟩

/-- JS String.prototype.trim. -/
def trimStr (s : String) : String :=
  ⟨(((s.data.dropWhile jsWs).reverse).dropWhile jsWs).reverse⟩

/-- Strip trailing zero digits from a fraction-digit list. -/
def stripTrailingZeros (s : List Char) : List Char :=
  ((s.reverse).dropWhile (· = '0')).reverse

/-- Render the rational n / 10^d the way JS String(number) renders it:
no decimal point for integers, otherwise the exact decimal expansion with
trailing zeros removed. -/
def decimalOfScaled (n : ℤ) (d : ℕ) : String :=
  if (10 : ℤ) ^ d ∣ n then toString (n / 10 ^ d)
  else
    let m := n.natAbs
    let ip := m / 10 ^ d
    let fp := m % 10 ^ d
    let fpStr := toString fp
    (if n < 0 then "-" else "") ++ toString ip ++ "." ++
      String.mk (stripTrailingZeros (List.replicate (d - fpStr.length) '0' ++ fpStr.data))

/-- toFloat: round to 4 decimals, render with a trailing f; integers render
via toFixed(1) as "n.0f". -/
def toFloat (v : ℚ) : String :=
  let n := jsRound (v * 10 ^ 4)
  if (10 : ℤ) ^ 4 ∣ n then toString (n / 10 ^ 4) ++ ".0f"
  else decimalOfScaled n 4 ++ "f"

/-- toInt: String(Math.round(value)). -/
def toInt (v : ℚ) : String := toString (jsRound v)

/-- JS Array.prototype.join with a newline separator. -/
def joinLines : List String → String
  | [] => ""
  | [a] => a
  | a :: b :: rest => a ++ "\n" ++ joinLines (b :: rest)

/- ── ir/types.ts ───────────────────────────────────────────────────── -/

structure IRColor where
  r : ℚ
  g : ℚ
  b : ℚ
  a : ℚ
deriving DecidableEq, Repr

structure IRBounds where
  x : ℚ
  y : ℚ
  width : ℚ
  height : ℚ
deriving DecidableEq, Repr

structure IRVector2 where
  x : ℚ
  y : ℚ
deriving DecidableEq, Repr

structure IRGradientStop where
  position : ℚ
  color : IRColor
deriving DecidableEq, Repr

inductive IRFill : Type where
  | solid (color : IRColor) (opacity : ℚ) (visible : Bool)
  | linearGradient (start stop : IRVector2) (stops : List IRGradientStop)
      (opacity : ℚ) (visible : Bool)
  | radialGradient (center radius : IRVector2) (stops : List IRGradientStop)
      (opacity : ℚ) (visible : Bool)
  | image (imageRef : String) (scaleMode : String) (opacity : ℚ) (visible : Bool)
deriving DecidableEq, Repr

def IRFill.visible : IRFill → Bool
  | .solid _ _ v => v
  | .linearGradient _ _ _ _ v => v
  | .radialGradient _ _ _ _ v => v
  | .image _ _ _ v => v

structure IRStroke where
  color : IRColor
  weight : ℚ
  align : String
  cap : String
  join : String
  dashes : List ℚ
  opacity : ℚ
  visible : Bool
deriving DecidableEq, Repr

inductive IREffect : Type where
  | dropShadow (color : IRColor) (offset : IRVector2) (radius spread : ℚ) (visible : Bool)
  | innerShadow (color : IRColor) (offset : IRVector2) (radius spread : ℚ) (visible : Bool)
  | layerBlur (radius : ℚ) (visible : Bool)
  | backgroundBlur (radius : ℚ) (visible : Bool)
deriving DecidableEq, Repr

structure IRCornerRadius where
  topLeft : ℚ
  topRight : ℚ
  bottomRight : ℚ
  bottomLeft : ℚ
  isUniform : Bool
deriving DecidableEq, Repr

structure IRTextStyle where
  fontFamily : String
  fontWeight : ℚ
  fontSize : ℚ
  italic : Bool
  letterSpacing : ℚ
  lineHeight : ℚ
  textAlignHorizontal : String
  textAlignVertical : String
  textDecoration : String
  textCase : String
  color : IRColor
deriving DecidableEq, Repr

structure IRAutoLayout where
  mode : String
  primaryAxisAlign : String
  counterAxisAlign : String
  paddingTop : ℚ
  paddingRight : ℚ
  paddingBottom : ℚ
  paddingLeft : ℚ
  itemSpacing : ℚ
  primaryAxisSizing : String
  counterAxisSizing : String
  wrap : Bool
deriving DecidableEq, Repr

inductive IRHorizontalConstraint : Type where
  | left | right | center | leftRight | scale
deriving DecidableEq, Repr

inductive IRVerticalConstraint : Type where
  | top | bottom | center | topBottom | scale
deriving DecidableEq, Repr

structure IRConstraints where
  horizontal : IRHorizontalConstraint
  vertical : IRVerticalConstraint
deriving DecidableEq, Repr

structure IRPathData where
  path : String
  windingRule : String
deriving DecidableEq, Repr

/-- Fields shared by every IR node (IRNodeBase in the source). -/
structure NodeCommon where
  id : String
  name : String
  visible : Bool
  opacity : ℚ
  bounds : IRBounds
  relativeX : ℚ
  relativeY : ℚ
  fills : List IRFill
  strokes : List IRStroke
  effects : List IREffect
  blendMode : String
  layoutAlign : Option String
  layoutGrow : Option ℚ
  constraints : Option IRConstraints
deriving Repr

inductive IRNode : Type where
  | frame (c : NodeCommon) (ftype : String) (children : List IRNode)
      (cornerRadius : IRCornerRadius) (clipsContent : Bool)
      (autoLayout : Option IRAutoLayout)
  | group (c : NodeCommon) (children : List IRNode)
  | rect (c : NodeCommon) (cornerRadius : IRCornerRadius)
  | ellipse (c : NodeCommon)
  | text (c : NodeCommon) (characters : String) (textStyle : IRTextStyle)
      (autoResize : String)
  | vector (c : NodeCommon) (vtype : String) (paths : List IRPathData)
deriving Repr

def IRNode.common : IRNode → NodeCommon
  | .frame c _ _ _ _ _ => c
  | .group c _ => c
  | .rect c _ => c
  | .ellipse c => c
  | .text c _ _ _ => c
  | .vector c _ _ => c

def IRNode.childrenL : IRNode → List IRNode
  | .frame _ _ ch _ _ _ => ch
  | .group _ ch => ch
  | _ => []

def IRNode.visible (n : IRNode) : Bool := n.common.visible

def IRNode.autoLayoutOpt : IRNode → Option IRAutoLayout
  | .frame _ _ _ _ _ al => al
  | _ => none

/- ── figma/types.ts (only the parts used by the embedded parser code) ── -/

structure FigmaColor where
  r : ℚ
  g : ℚ
  b : ℚ
  a : ℚ
deriving DecidableEq, Repr

structure FigmaVector where
  x : ℚ
  y : ℚ
deriving DecidableEq, Repr

structure FigmaColorStop where
  position : ℚ
  color : FigmaColor
deriving DecidableEq, Repr

/-- FigmaPaint. All fields that the source reads; optional fields are
optional in the API response. -/
structure FigmaPaint where
  type : String
  visible : Option Bool
  opacity : Option ℚ
  color : Option FigmaColor
  gradientHandlePositions : Option (List FigmaVector)
  gradientStops : Option (List FigmaColorStop)
  scaleMode : Option String
  imageRef : Option String
deriving DecidableEq, Repr

structure FigmaLetterSpacing where
  value : ℚ
  unit : String
deriving DecidableEq, Repr

/-- FigmaTypeStyle, restricted to the fields extractTextStyle reads.
letterSpacing is declared required in the source interface but the code
guards against its absence, so it is optional here. -/
structure FigmaTypeStyle where
  fontFamily : String
  fontWeight : ℚ
  fontSize : ℚ
  textAlignHorizontal : String
  textAlignVertical : String
  letterSpacing : Option FigmaLetterSpacing
  lineHeightPx : ℚ
  fills : Option (List FigmaPaint)
  italic : Option Bool
  textDecoration : Option String
  textCase : Option String
deriving Repr

/- ── figma/parser.ts ──────────────────────────────────────────────── -/

/-- JS toLowerCase restricted to ASCII, which is all the parser applies it to. -/
def lowerAscii (s : String) : String := ⟨s.data.map Char.toLower⟩

def convertColor (color : FigmaColor) : IRColor :=
  { r := color.r, g := color.g, b := color.b, a := color.a }

def convertGradientStops (stops : List FigmaColorStop) : List IRGradientStop :=
  stops.map (fun stop => { position := stop.position, color := convertColor stop.color })

/-- Rational stand-in for Math.sqrt in the radial-gradient radius; exact on
perfect squares. No theorem in this file depends on its value. -/
def ratSqrt (q : ℚ) : ℚ := Rat.sqrt q

/-- convertFill. A paint whose required geometry is absent converts to none.
In the GRADIENT branches the source indexes gradientHandlePositions[0..2]
unconditionally; a handle list that is too short is a runtime fault there and
is mapped to none here (no claim exercises that path). -/
def convertFill (paint : FigmaPaint) : Option IRFill :=
  let visible := paint.visible ≠ some false
  let opacity := paint.opacity.getD 1
  if paint.type = "SOLID" then
    match paint.color with
    | none => none
    | some c => some (.solid (convertColor c) opacity visible)
  else if paint.type = "GRADIENT_LINEAR" then
    match paint.gradientHandlePositions, paint.gradientStops with
    | some (h0 :: h1 :: _), some stops =>
        some (.linearGradient ⟨h0.x, h0.y⟩ ⟨h1.x, h1.y⟩
          (convertGradientStops stops) opacity visible)
    | some _, some _ => none
    | _, _ => none
  else if paint.type = "GRADIENT_RADIAL" then
    match paint.gradientHandlePositions, paint.gradientStops with
    | some (h0 :: h1 :: h2 :: _), some stops =>
        some (.radialGradient ⟨h0.x, h0.y⟩
          ⟨ratSqrt ((h1.x - h0.x) ^ 2 + (h1.y - h0.y) ^ 2),
           ratSqrt ((h2.x - h0.x) ^ 2 + (h2.y - h0.y) ^ 2)⟩
          (convertGradientStops stops) opacity visible)
    | some _, some _ => none
    | _, _ => none
  else if paint.type = "IMAGE" then
    match paint.imageRef with
    | none => none
    | some ref =>
        some (.image ref ((paint.scaleMode.map lowerAscii).getD "fill") opacity visible)
  else
    none

def convertFills (fills : Option (List FigmaPaint)) : List IRFill :=
  match fills with
  | none => []
  | some fs => fs.filterMap convertFill

def convertStrokeAlign (align : Option String) : String :=
  match align with
  | some "INSIDE" => "inside"
  | some "OUTSIDE" => "outside"
  | some "CENTER" => "center"
  | _ => "center"

def convertStrokeCap (cap : Option String) : String :=
  match cap with
  | some "ROUND" => "round"
  | some "SQUARE" => "square"
  | _ => "none"

def convertStrokeJoin (join : Option String) : String :=
  match join with
  | some "BEVEL" => "bevel"
  | some "ROUND" => "round"
  | _ => "miter"

/-- convertStrokes: keep only visible SOLID paints that carry a color. -/
def convertStrokes (strokes : Option (List FigmaPaint)) (strokeWeight : Option ℚ)
    (strokeAlign strokeCap strokeJoin : Option String) : List IRStroke :=
  match strokes with
  | none => []
  | some ss =>
      ss.filterMap (fun stroke =>
        if stroke.visible = some false then none
        else if stroke.type ≠ "SOLID" then none
        else
          match stroke.color with
          | none => none
          | some c =>
              some { color := convertColor c,
                     weight := strokeWeight.getD 1,
                     align := convertStrokeAlign strokeAlign,
                     cap := convertStrokeCap strokeCap,
                     join := convertStrokeJoin strokeJoin,
                     dashes := [],
                     opacity := stroke.opacity.getD 1,
                     visible := stroke.visible ≠ some false })

def convertLetterSpacing (style : FigmaTypeStyle) : ℚ :=
  match style.letterSpacing with
  | none => 0
  | some ls => if ls.unit = "PIXELS" then ls.value else ls.value / 100 * style.fontSize

def convertTextDecoration (decoration : Option String) : String :=
  match decoration with
  | some "UNDERLINE" => "underline"
  | some "STRIKETHROUGH" => "strikethrough"
  | _ => "none"

def convertTextCase (textCase : Option String) : String :=
  match textCase with
  | some "UPPER" => "upper"
  | some "LOWER" => "lower"
  | some "TITLE" => "title"
  | _ => "original"

/-- extractTextStyle: the text color comes from the first entry of the
style-level fill list, and only when that entry is SOLID with a color. -/
def extractTextStyle (style : FigmaTypeStyle) : IRTextStyle :=
  let color : IRColor :=
    match style.fills with
    | some (firstFill :: _) =>
        if firstFill.type = "SOLID" then
          match firstFill.color with
          | some c => convertColor c
          | none => ⟨0, 0, 0, 1⟩
        else ⟨0, 0, 0, 1⟩
    | _ => ⟨0, 0, 0, 1⟩
  { fontFamily := style.fontFamily,
    fontWeight := style.fontWeight,
    fontSize := style.fontSize,
    italic := style.italic.getD false,
    letterSpacing := convertLetterSpacing style,
    lineHeight := style.lineHeightPx,
    textAlignHorizontal := lowerAscii style.textAlignHorizontal,
    textAlignVertical := lowerAscii style.textAlignVertical,
    textDecoration := convertTextDecoration style.textDecoration,
    textCase := convertTextCase style.textCase,
    color := color }

/- ── codegen/path.ts: SVG path parser ─────────────────────────────── -/

structure SvgCommand where
  type : Char
  args : List ℚ
deriving DecidableEq, Repr

/-- The command letters of the tokenizer regex character class. -/
def isCmdLetter (c : Char) : Bool :=
  c = 'M' || c = 'm' || c = 'L' || c = 'l' || c = 'H' || c = 'h' ||
  c = 'V' || c = 'v' || c = 'C' || c = 'c' || c = 'Q' || c = 'q' ||
  c = 'S' || c = 's' || c = 'T' || c = 't' || c = 'A' || c = 'a' ||
  c = 'Z' || c = 'z'

/-- Tokenizer worker. Fuel equals the character count; dropWhile never grows
a list, so the fuel suffices and the fueled function equals the scan. -/
def scanTokensAux : ℕ → List Char → List (Char × List Char)
  | 0, _ => []
  | _, [] => []
  | fuel + 1, c :: cs =>
      if isCmdLetter c then
        (c, cs.takeWhile (fun d => ¬ isCmdLetter d)) ::
          scanTokensAux fuel (cs.dropWhile (fun d => ¬ isCmdLetter d))
      else scanTokensAux fuel cs

/-- Tokenize as the global regex does: each command letter captures the run
of following non-command characters; text before the first letter is skipped. -/
def scanTokens (cs : List Char) : List (Char × List Char) :=
  scanTokensAux cs.length cs

def digitsToNat (ds : List Char) : ℕ :=
  ds.foldl (fun acc d => 10 * acc + (d.toNat - '0'.toNat)) 0

/-- Match the numeric-literal regex -?\d*\.?\d+(e[+-]?\d+)? at the head of
the character list. Returns the value and the remaining characters. -/
def matchNum (cs : List Char) : Option (ℚ × List Char) :=
  let core : List Char → Option (ℚ × List Char) := fun cs0 =>
    let intPart := cs0.takeWhile Char.isDigit
    let r1 := cs0.dropWhile Char.isDigit
    match r1 with
    | '.' :: r2 =>
        let fracPart := r2.takeWhile Char.isDigit
        if fracPart ≠ [] then
          some ((digitsToNat intPart : ℚ) +
            (digitsToNat fracPart : ℚ) / 10 ^ fracPart.length,
            r2.dropWhile Char.isDigit)
        else if intPart ≠ [] then some ((digitsToNat intPart : ℚ), r1)
        else none
    | _ => if intPart ≠ [] then some ((digitsToNat intPart : ℚ), r1) else none
  let withExp : ℚ × List Char → ℚ × List Char := fun (q, rest) =>
    match rest with
    | e :: r2 =>
        if e = 'e' ∨ e = 'E' then
          let (sgn, r3) : ℚ × List Char :=
            match r2 with
            | '+' :: r3 => (1, r3)
            | '-' :: r3 => (-1, r3)
            | _ => (1, r2)
          let expPart := r3.takeWhile Char.isDigit
          if expPart ≠ [] then
            (if sgn = 1 then q * 10 ^ digitsToNat expPart
             else q / 10 ^ digitsToNat expPart,
             r3.dropWhile Char.isDigit)
          else (q, rest)
        else (q, rest)
    | [] => (q, rest)
  match cs with
  | '-' :: cs1 =>
      match core cs1 with
      | some (q, rest) => some (withExp (-q, rest))
      | none => none
  | _ =>
      match core cs with
      | some (q, rest) => some (withExp (q, rest))
      | none => none

/-- Scan for all numeric-literal matches, left to right, skipping characters
where no match starts. Fuel equals the list length; every successful match
consumes at least one character, so the fuel suffices. -/
def scanNumbersAux : ℕ → List Char → List ℚ
  | 0, _ => []
  | _, [] => []
  | fuel + 1, c :: cs =>
      match matchNum (c :: cs) with
      | some (q, rest) => q :: scanNumbersAux fuel rest
      | none => scanNumbersAux fuel cs

/-- parseNumbers: collect every match of the numeric-literal regex. -/
def parseNumbers (s : String) : List ℚ :=
  if s.data = [] then [] else scanNumbersAux s.data.length s.data

/-- getExpectedArgCount, keyed on the uppercased command letter. -/
def getExpectedArgCount (ty : Char) : ℕ :=
  match ty.toUpper with
  | 'M' => 2
  | 'L' => 2
  | 'T' => 2
  | 'H' => 1
  | 'V' => 1
  | 'C' => 6
  | 'S' => 4
  | 'Q' => 4
  | 'A' => 7
  | _ => 0

/-- Worker for the slice loop. Fuel equals the operand count; each step
consumes at least the head operand, so the fuel suffices. -/
def chunkArgsAux (n : ℕ) : ℕ → List ℚ → List (List ℚ)
  | _, [] => []
  | 0, _ :: _ => []
  | fuel + 1, a :: as => (a :: as).take n :: chunkArgsAux n fuel (as.drop (n - 1))

/-- The slice loop: successive chunks of n operands (last chunk may be short). -/
def chunkArgs (n : ℕ) (args : List ℚ) : List (List ℚ) :=
  match n with
  | 0 => []
  | _ + 1 => chunkArgsAux n args.length args

/-- One tokenized command with parsed operands, split by the
implicit-repetition rule when the operand run exceeds the arity. -/
def splitRun (ty : Char) (args : List ℚ) : List SvgCommand :=
  let expected := getExpectedArgCount ty
  if expected = 0 ∨ args.length ≤ expected then [⟨ty, args⟩]
  else (chunkArgs expected args).map (fun a => ⟨ty, a⟩)

/-- parseSvgPath. -/
def parseSvgPath (d : String) : List SvgCommand :=
  (scanTokens d.data).flatMap (fun (ty, argChars) =>
    if ty = 'Z' ∨ ty = 'z' then [⟨ty, []⟩]
    else splitRun ty (parseNumbers (trimStr ⟨argChars⟩)))

/- ── codegen/path.ts: svgToJucePath ───────────────────────────────── -/

/-- Operand access cmd.args[i]; an out-of-range index is undefined (NaN) in
the source and is modelled as 0 here — the parser never produces one for the
arities the translator reads. -/
def argD (args : List ℚ) (i : ℕ) : ℚ := args.getD i 0

/-- One switch arm of svgToJucePath: emitted lines and the updated cursor. -/
def svgStep (varName : String) (cmd : SvgCommand) (x y : ℚ) :
    List String × ℚ × ℚ :=
  match cmd.type with
  | 'M' =>
      ([varName ++ ".startNewSubPath(" ++ toFloat (argD cmd.args 0) ++ ", " ++
        toFloat (argD cmd.args 1) ++ ");"], argD cmd.args 0, argD cmd.args 1)
  | 'm' =>
      let mx := x + argD cmd.args 0
      let my := y + argD cmd.args 1
      ([varName ++ ".startNewSubPath(" ++ toFloat mx ++ ", " ++ toFloat my ++ ");"],
        mx, my)
  | 'L' =>
      ([varName ++ ".lineTo(" ++ toFloat (argD cmd.args 0) ++ ", " ++
        toFloat (argD cmd.args 1) ++ ");"], argD cmd.args 0, argD cmd.args 1)
  | 'l' =>
      let lx := x + argD cmd.args 0
      let ly := y + argD cmd.args 1
      ([varName ++ ".lineTo(" ++ toFloat lx ++ ", " ++ toFloat ly ++ ");"], lx, ly)
  | 'H' =>
      ([varName ++ ".lineTo(" ++ toFloat (argD cmd.args 0) ++ ", " ++
        toFloat y ++ ");"], argD cmd.args 0, y)
  | 'h' =>
      let hx := x + argD cmd.args 0
      ([varName ++ ".lineTo(" ++ toFloat hx ++ ", " ++ toFloat y ++ ");"], hx, y)
  | 'V' =>
      ([varName ++ ".lineTo(" ++ toFloat x ++ ", " ++
        toFloat (argD cmd.args 0) ++ ");"], x, argD cmd.args 0)
  | 'v' =>
      let vy := y + argD cmd.args 0
      ([varName ++ ".lineTo(" ++ toFloat x ++ ", " ++ toFloat vy ++ ");"], x, vy)
  | 'C' =>
      ([varName ++ ".cubicTo(" ++ toFloat (argD cmd.args 0) ++ ", " ++
        toFloat (argD cmd.args 1) ++ ", " ++ toFloat (argD cmd.args 2) ++ ", " ++
        toFloat (argD cmd.args 3) ++ ", " ++ toFloat (argD cmd.args 4) ++ ", " ++
        toFloat (argD cmd.args 5) ++ ");"], argD cmd.args 4, argD cmd.args 5)
  | 'c' =>
      let cx1 := x + argD cmd.args 0
      let cy1 := y + argD cmd.args 1
      let cx2 := x + argD cmd.args 2
      let cy2 := y + argD cmd.args 3
      let cex := x + argD cmd.args 4
      let cey := y + argD cmd.args 5
      ([varName ++ ".cubicTo(" ++ toFloat cx1 ++ ", " ++ toFloat cy1 ++ ", " ++
        toFloat cx2 ++ ", " ++ toFloat cy2 ++ ", " ++ toFloat cex ++ ", " ++
        toFloat cey ++ ");"], cex, cey)
  | 'Q' =>
      ([varName ++ ".quadraticTo(" ++ toFloat (argD cmd.args 0) ++ ", " ++
        toFloat (argD cmd.args 1) ++ ", " ++ toFloat (argD cmd.args 2) ++ ", " ++
        toFloat (argD cmd.args 3) ++ ");"], argD cmd.args 2, argD cmd.args 3)
  | 'q' =>
      let qx1 := x + argD cmd.args 0
      let qy1 := y + argD cmd.args 1
      let qex := x + argD cmd.args 2
      let qey := y + argD cmd.args 3
      ([varName ++ ".quadraticTo(" ++ toFloat qx1 ++ ", " ++ toFloat qy1 ++ ", " ++
        toFloat qex ++ ", " ++ toFloat qey ++ ");"], qex, qey)
  | 'Z' => ([varName ++ ".closeSubPath();"], x, y)
  | 'z' => ([varName ++ ".closeSubPath();"], x, y)
  | _ => ([], x, y)

/-- Run the translator over a command list from a given cursor, returning
the emitted lines and the final cursor. -/
def svgRun (varName : String) : List SvgCommand → ℚ → ℚ → List String × ℚ × ℚ
  | [], x, y => ([], x, y)
  | cmd :: rest, x, y =>
      let (ls, x1, y1) := svgStep varName cmd x y
      let (ls2, xf, yf) := svgRun varName rest x1 y1
      (ls ++ ls2, xf, yf)

/-- svgToJucePath: translate one path-data entry, cursor starting at (0,0). -/
def svgToJucePath (pathData : IRPathData) (varName : String) : List String :=
  (svgRun varName (parseSvgPath pathData.path) 0 0).1

/- ── codegen/colour.ts ────────────────────────────────────────────── -/

def clamp01 (v : ℚ) : ℚ := min (max v 0) 1

/-- Two-digit lowercase hex of a byte value. -/
def hex2 (n : ℕ) : String :=
  let s := String.mk (Nat.toDigits 16 n)
  if s.length = 1 then "0" ++ s else s

def colourToHex (color : IRColor) : String :=
  let r := (jsRound (clamp01 color.r * 255)).natAbs
  let g := (jsRound (clamp01 color.g * 255)).natAbs
  let b := (jsRound (clamp01 color.b * 255)).natAbs
  let a := (jsRound (clamp01 color.a * 255)).natAbs
  "0x" ++ hex2 a ++ hex2 r ++ hex2 g ++ hex2 b

def generateColour (color : IRColor) : String :=
  "juce::Colour(" ++ colourToHex color ++ ")"

/-- formatFloat in colour.ts: integers print via toFixed(1), everything else
rounds to 4 decimals and prints via String(number). -/
def formatFloat (v : ℚ) : String :=
  if v.den = 1 then toString v.num ++ ".0f"
  else decimalOfScaled (jsRound (v * 10 ^ 4)) 4 ++ "f"

def generateColourWithOpacity (color : IRColor) (opacity : ℚ) : String :=
  if opacity ≥ 1 then generateColour color
  else
    generateColour color ++ ".withAlpha(" ++
      formatFloat ((jsRound (opacity * 1000) : ℚ) / 1000) ++ ")"

def generateSolidFillCode (color : IRColor) (opacity : ℚ) : String :=
  "g.setColour(" ++ generateColourWithOpacity color opacity ++ ");\n"

/-- Shared body of the two gradient generators: the stop list has already
been split as first stop, middle stops, last stop. -/
def gradientLines (firstColor : IRColor) (x1 y1 : String) (lastColor : IRColor)
    (x2 y2 : String) (radial : Bool) (midStops : List IRGradientStop)
    (opacity : ℚ) : String :=
  let lines : List String :=
    ["juce::ColourGradient gradient(" ++ generateColour firstColor ++ ", " ++
       x1 ++ ", " ++ y1 ++ ",",
     "                             " ++ generateColour lastColor ++ ", " ++
       x2 ++ ", " ++ y2 ++ ", " ++ (if radial then "true" else "false") ++ ");"]
    ++ midStops.map (fun stop =>
         "gradient.addColour(" ++ formatFloat stop.position ++ ", " ++
           generateColour stop.color ++ ");")
    ++ (if opacity < 1 then
          ["gradient.multiplyOpacity(" ++ formatFloat opacity ++ ");"] else [])
    ++ ["g.setGradientFill(gradient);"]
  joinLines lines ++ "\n"

def generateLinearGradientCode (start stop : IRVector2)
    (stops : List IRGradientStop) (opacity : ℚ) (boundsVar : String) : String :=
  match stops with
  | s0 :: s1 :: rest =>
      let last := (s1 :: rest).getLast (by simp)
      let sx := boundsVar ++ ".getX() + " ++ boundsVar ++ ".getWidth() * " ++
        formatFloat start.x
      let sy := boundsVar ++ ".getY() + " ++ boundsVar ++ ".getHeight() * " ++
        formatFloat start.y
      let ex := boundsVar ++ ".getX() + " ++ boundsVar ++ ".getWidth() * " ++
        formatFloat stop.x
      let ey := boundsVar ++ ".getY() + " ++ boundsVar ++ ".getHeight() * " ++
        formatFloat stop.y
      gradientLines s0.color sx sy last.color ex ey false
        ((s0 :: s1 :: rest).drop 1).dropLast opacity
  | _ => ""

def generateRadialGradientCode (center radius : IRVector2)
    (stops : List IRGradientStop) (opacity : ℚ) (boundsVar : String) : String :=
  match stops with
  | s0 :: s1 :: rest =>
      let last := (s1 :: rest).getLast (by simp)
      let cx := boundsVar ++ ".getX() + " ++ boundsVar ++ ".getWidth() * " ++
        formatFloat center.x
      let cy := boundsVar ++ ".getY() + " ++ boundsVar ++ ".getHeight() * " ++
        formatFloat center.y
      let edgeX := boundsVar ++ ".getX() + " ++ boundsVar ++ ".getWidth() * " ++
        formatFloat (center.x + radius.x)
      let edgeY := boundsVar ++ ".getY() + " ++ boundsVar ++ ".getHeight() * " ++
        formatFloat center.y
      gradientLines s0.color cx cy last.color edgeX edgeY true
        ((s0 :: s1 :: rest).drop 1).dropLast opacity
  | _ => ""

/-- Sanitize an image ref to a member name: image_ plus the ref with every
non-alphanumeric character replaced by an underscore. -/
def imageRefToMemberName (imageRef : String) : String :=
  "image_" ++ imageRef.map (fun c => if c.isAlphanum then c else '_')

def generateImageFillCode (imageRef scaleMode : String) (opacity : ℚ)
    (boundsVar : String) : String :=
  let m := imageRefToMemberName imageRef
  let drawLines : List String :=
    if scaleMode = "fill" then
      ["    g.drawImage(" ++ m ++ ", " ++ boundsVar ++ ",",
       "                juce::RectanglePlacement::stretchToFit);"]
    else if scaleMode = "fit" then
      ["    g.drawImage(" ++ m ++ ", " ++ boundsVar ++ ",",
       "                juce::RectanglePlacement::centred | juce::RectanglePlacement::onlyReduceInSize);"]
    else if scaleMode = "crop" then
      ["    g.drawImage(" ++ m ++ ", " ++ boundsVar ++ ",",
       "                juce::RectanglePlacement::fillDestination);"]
    else if scaleMode = "tile" then
      ["    auto tileW = " ++ m ++ ".getWidth();",
       "    auto tileH = " ++ m ++ ".getHeight();",
       "    for (int y = " ++ boundsVar ++ ".getY(); y < " ++ boundsVar ++ ".getBottom(); y += tileH)",
       "    \x7b",
       "        for (int x = " ++ boundsVar ++ ".getX(); x < " ++ boundsVar ++ ".getRight(); x += tileW)",
       "        \x7b",
       "            g.drawImageAt(" ++ m ++ ", x, y);",
       "        \x7d",
       "    \x7d"]
    else []
  let lines : List String :=
    ["if (" ++ m ++ ".isValid())", "\x7b"]
    ++ (if opacity < 1 then ["    g.setOpacity(" ++ formatFloat opacity ++ ");"] else [])
    ++ drawLines
    ++ (if opacity < 1 then ["    g.setOpacity(1.0f);"] else [])
    ++ ["\x7d"]
  joinLines lines ++ "\n"

/-- generateFillCode: the g.setColour / g.setGradientFill / image-draw code
for one fill; empty string for invisible fills and degenerate gradients. -/
def generateFillCode (fill : IRFill) (boundsVar : String) : String :=
  if ¬ fill.visible then ""
  else
    match fill with
    | .solid color opacity _ => generateSolidFillCode color opacity
    | .linearGradient start stop stops opacity _ =>
        generateLinearGradientCode start stop stops opacity boundsVar
    | .radialGradient center radius stops opacity _ =>
        generateRadialGradientCode center radius stops opacity boundsVar
    | .image imageRef scaleMode opacity _ =>
        generateImageFillCode imageRef scaleMode opacity boundsVar

/- ── codegen/text.ts ──────────────────────────────────────────────── -/

def escapeCppString (s : String) : String :=
  ⟨s.data.flatMap (fun c =>
    if c = '\\' then ['\\', '\\']
    else if c = '"' then ['\\', '"']
    else if c = '\n' then ['\\', 'n']
    else if c = '\r' then ['\\', 'r']
    else if c = '\t' then ['\\', 't']
    else [c])⟩

def buildFontExpression (style : IRTextStyle) : String :=
  "juce::Font(juce::FontOptions(" ++ toFloat style.fontSize ++ "))" ++
    (if style.fontWeight ≥ 700 then ".boldened()" else "") ++
    (if style.italic then ".italicised()" else "")

def mapHorizontalAlign (align : String) : String :=
  if align = "left" then "left"
  else if align = "right" then "right"
  else if align = "center" then "horizontallyCentred"
  else "left"

def mapVerticalAlign (align : String) : String :=
  if align = "top" then "top"
  else if align = "bottom" then "bottom"
  else "verticallyCentred"

def mapJustification (horizontal vertical : String) : String :=
  let h := mapHorizontalAlign horizontal
  let v := mapVerticalAlign vertical
  if v = "verticallyCentred" then
    if h = "left" then "juce::Justification::centredLeft"
    else if h = "right" then "juce::Justification::centredRight"
    else "juce::Justification::centred"
  else if v = "top" then
    if h = "left" then "juce::Justification::topLeft"
    else if h = "right" then "juce::Justification::topRight"
    else "juce::Justification::centredTop"
  else
    if h = "left" then "juce::Justification::bottomLeft"
    else if h = "right" then "juce::Justification::bottomRight"
    else "juce::Justification::centredBottom"

/-- estimateMaxLines. With lineHeight 0 and fontSize 0 the source divides by
zero (Infinity); rational division by zero yields 0 here, and no theorem
evaluates that corner. -/
def estimateMaxLines (height : ℚ) (style : IRTextStyle) : ℤ :=
  if style.lineHeight > 0 then max 1 ⌊height / style.lineHeight⌋
  else max 1 ⌊height / (style.fontSize * (6 / 5))⌋

def generateTextDraw (node : IRNode) (boundsExpr : String) : List String :=
  match node with
  | .text c characters style autoResize =>
      let text := escapeCppString characters
      let justification := mapJustification style.textAlignHorizontal style.textAlignVertical
      ["g.setFont(" ++ buildFontExpression style ++ ");",
       "g.setColour(" ++ generateColourWithOpacity style.color 1 ++ ");"]
      ++ (if autoResize = "truncate" ∨ autoResize = "none" then
            ["g.drawFittedText(\"" ++ text ++ "\", " ++ boundsExpr ++
               ".toNearestInt(), " ++ justification ++ ", " ++
               toString (estimateMaxLines c.bounds.height style) ++ ");"]
          else
            ["g.drawText(\"" ++ text ++ "\", " ++ boundsExpr ++ ", " ++
               justification ++ ", true);"])
  | _ => []

/- ── codegen/path.ts: generatePathDraw ────────────────────────────── -/

def IRNode.pathsL : IRNode → List IRPathData
  | .vector _ _ p => p
  | _ => []

/-- One per-path drawing scope of generatePathDraw. -/
def pathBlock (fills : List IRFill) (strokes : List IRStroke)
    (boundsExpr varName : String) (pathData : IRPathData) : List String :=
  ["\x7b", "    juce::Path " ++ varName ++ ";"]
  ++ (svgToJucePath pathData varName).map (fun l => "    " ++ l)
  ++ (if pathData.windingRule = "evenodd" then
        ["    " ++ varName ++ ".setUsingNonZeroWinding(false);"] else [])
  ++ fills.flatMap (fun fill =>
       if ¬ fill.visible then []
       else
         let fillCode := generateFillCode fill boundsExpr
         if fillCode = "" then []
         else ["    " ++ trimEnd fillCode, "    g.fillPath(" ++ varName ++ ");"])
  ++ strokes.flatMap (fun stroke =>
       if ¬ stroke.visible then []
       else
         ["    g.setColour(" ++ generateColourWithOpacity stroke.color stroke.opacity ++ ");",
          "    g.strokePath(" ++ varName ++ ", juce::PathStrokeType(" ++
            toFloat stroke.weight ++ "));"])
  ++ ["\x7d"]

def generatePathDraw (node : IRNode) (boundsExpr : String) : List String :=
  node.pathsL.enum.flatMap (fun (i, pathData) =>
    pathBlock node.common.fills node.common.strokes boundsExpr
      (if node.pathsL.length = 1 then "path" else "path" ++ toString i) pathData)

/- ── codegen/templates.ts: paint generator ────────────────────────── -/

def nodeBoundsExpr (node : IRNode) : String :=
  "juce::Rectangle<float>(" ++ toFloat node.common.relativeX ++ ", " ++
    toFloat node.common.relativeY ++ ", " ++ toFloat node.common.bounds.width ++
    ", " ++ toFloat node.common.bounds.height ++ ")"

def hasRounding (cr : IRCornerRadius) : Bool :=
  cr.topLeft > 0 || cr.topRight > 0 || cr.bottomRight > 0 || cr.bottomLeft > 0

def boolCpp (b : Bool) : String := if b then "true" else "false"

def perCornerRoundedRect (boundsExpr : String) (cr : IRCornerRadius) : List String :=
  let maxR := max (max cr.topLeft cr.topRight) (max cr.bottomLeft cr.bottomRight)
  let allSame := cr.topLeft = cr.topRight ∧ cr.topRight = cr.bottomLeft ∧
    cr.bottomLeft = cr.bottomRight
  if allSame ∨ (cr.topLeft > 0 ∧ cr.topRight > 0 ∧ cr.bottomLeft > 0 ∧
      cr.bottomRight > 0 ∧ cr.topLeft = cr.topRight ∧
      cr.bottomLeft = cr.bottomRight ∧ cr.topLeft = cr.bottomLeft) then
    ["g.fillRoundedRectangle(" ++ boundsExpr ++ ", " ++ toFloat cr.topLeft ++ ");"]
  else
    ["\x7b",
     "    auto rc = " ++ boundsExpr ++ ";",
     "    juce::Path p;",
     "    p.addRoundedRectangle(rc.getX(), rc.getY(), rc.getWidth(), rc.getHeight(),",
     "                          " ++ toFloat maxR ++ ", " ++ toFloat maxR ++ ",",
     "                          " ++ boolCpp (cr.topLeft > 0) ++ ", " ++
       boolCpp (cr.topRight > 0) ++ ",",
     "                          " ++ boolCpp (cr.bottomLeft > 0) ++ ", " ++
       boolCpp (cr.bottomRight > 0) ++ ");",
     "    g.fillPath(p);",
     "\x7d"]

def generateRectPaint (fills : List IRFill) (cr : IRCornerRadius)
    (boundsExpr : String) : List String :=
  fills.flatMap (fun fill =>
    if ¬ fill.visible then []
    else
      let fillCode := generateFillCode fill boundsExpr
      if fillCode = "" then []
      else
        [trimEnd fillCode] ++
        (if hasRounding cr then
           if cr.isUniform then
             ["g.fillRoundedRectangle(" ++ boundsExpr ++ ", " ++
                toFloat cr.topLeft ++ ");"]
           else perCornerRoundedRect boundsExpr cr
         else ["g.fillRect(" ++ boundsExpr ++ ");"]))

def generateEllipsePaint (fills : List IRFill) (boundsExpr : String) : List String :=
  fills.flatMap (fun fill =>
    if ¬ fill.visible then []
    else
      let fillCode := generateFillCode fill boundsExpr
      if fillCode = "" then []
      else [trimEnd fillCode, "g.fillEllipse(" ++ boundsExpr ++ ");"])

def generateDropShadows (node : IRNode) : List String :=
  node.common.effects.flatMap (fun effect =>
    match effect with
    | .dropShadow color offset radius _ visible =>
        if ¬ visible then []
        else
          ["\x7b",
           "    juce::DropShadow shadow(" ++ generateColour color ++ ", " ++
             toString (jsRound radius) ++ ", juce::Point<int>(" ++
             toString (jsRound offset.x) ++ ", " ++ toString (jsRound offset.y) ++ "));",
           "    shadow.drawForRectangle(g, " ++ nodeBoundsExpr node ++ ".toNearestInt());",
           "\x7d"]
    | _ => [])

def generateInnerShadows (node : IRNode) (boundsExpr : String) : List String :=
  node.common.effects.flatMap (fun effect =>
    match effect with
    | .innerShadow color offset radius _ visible =>
        if ¬ visible then []
        else
          ["\x7b",
           "    // Inner shadow: offset(" ++ toString (jsRound offset.x) ++ ", " ++
             toString (jsRound offset.y) ++ ") blur " ++ toString (jsRound radius),
           "    g.saveState();",
           "    g.reduceClipRegion(" ++ boundsExpr ++ ".toNearestInt());",
           "    juce::DropShadow innerShadow(" ++ generateColour color ++ ", " ++
             toString (jsRound radius) ++ ", juce::Point<int>(" ++
             toString (jsRound offset.x) ++ ", " ++ toString (jsRound offset.y) ++ "));",
           "    // Draw shadow around an inverted region to create inner shadow effect",
           "    auto outerRect = " ++ boundsExpr ++ ".expanded(" ++
             toString (jsRound (radius + |offset.x| + |offset.y|)) ++ ").toNearestInt();",
           "    innerShadow.drawForRectangle(g, outerRect);",
           "    g.restoreState();",
           "\x7d"]
    | _ => [])

def generateBlurEffects (node : IRNode) : List String :=
  node.common.effects.flatMap (fun effect =>
    match effect with
    | .layerBlur radius visible =>
        if ¬ visible then []
        else
          ["// Layer blur (radius: " ++ toString (jsRound radius) ++ "px)",
           "// Implement via juce::ImageConvolutionKernel or custom shader"]
    | .backgroundBlur radius visible =>
        if ¬ visible then []
        else
          ["// Background blur (radius: " ++ toString (jsRound radius) ++ "px)",
           "// Implement via juce::ImageConvolutionKernel or custom shader"]
    | _ => [])

/-- The shape-outline line emitted for one stroke, by node kind. -/
def strokeShapeLine (node : IRNode) (boundsExpr : String) (stroke : IRStroke) : String :=
  match node with
  | .ellipse _ =>
      "g.drawEllipse(" ++ boundsExpr ++ ", " ++ toFloat stroke.weight ++ ");"
  | .rect _ cr =>
      if hasRounding cr then
        "g.drawRoundedRectangle(" ++ boundsExpr ++ ", " ++ toFloat cr.topLeft ++
          ", " ++ toFloat stroke.weight ++ ");"
      else "g.drawRect(" ++ boundsExpr ++ ", " ++ toFloat stroke.weight ++ ");"
  | .frame _ _ _ cr _ _ =>
      if hasRounding cr then
        "g.drawRoundedRectangle(" ++ boundsExpr ++ ", " ++ toFloat cr.topLeft ++
          ", " ++ toFloat stroke.weight ++ ");"
      else "g.drawRect(" ++ boundsExpr ++ ", " ++ toFloat stroke.weight ++ ");"
  | _ => "g.drawRect(" ++ boundsExpr ++ ", " ++ toFloat stroke.weight ++ ");"

def generateStrokes (node : IRNode) (boundsExpr : String) : List String :=
  node.common.strokes.flatMap (fun stroke =>
    if ¬ stroke.visible then []
    else
      ["g.setColour(" ++ generateColourWithOpacity stroke.color stroke.opacity ++ ");",
       strokeShapeLine node boundsExpr stroke])

def generateNodePaint (node : IRNode) (boundsExpr : String) : List String :=
  match node with
  | .rect c cr => generateRectPaint c.fills cr boundsExpr
  | .frame c _ _ cr _ _ => generateRectPaint c.fills cr boundsExpr
  | .ellipse _ => generateEllipsePaint node.common.fills boundsExpr
  | .text _ _ _ _ => generateTextDraw node boundsExpr
  | .vector _ _ _ => generatePathDraw node boundsExpr
  | .group _ _ => []

/-- The opacity-scope opener lines of generateChildPaint. -/
def opacityPre (node : IRNode) (boundsExpr : String) : List String :=
  if node.common.opacity < 1 then
    ["g.saveState();",
     "g.reduceClipRegion(" ++ boundsExpr ++ ".toNearestInt());",
     "g.setOpacity(" ++ toFloat node.common.opacity ++ ");"]
  else []

/-- The opacity-scope closer line of generateChildPaint. -/
def opacityPost (node : IRNode) : List String :=
  if node.common.opacity < 1 then ["g.restoreState();"] else []

mutual

def generateChildPaint (node : IRNode) : List String :=
  if ¬ node.visible then []
  else
    let boundsExpr := nodeBoundsExpr node
    opacityPre node boundsExpr
    ++ generateDropShadows node
    ++ generateNodePaint node boundsExpr
    ++ generateInnerShadows node boundsExpr
    ++ generateBlurEffects node
    ++ generateStrokes node boundsExpr
    ++ (match node with
        | .frame _ _ children _ _ _ => generateChildPaintList children
        | .group _ children => generateChildPaintList children
        | _ => [])
    ++ opacityPost node

def generateChildPaintList : List IRNode → List String
  | [] => []
  | node :: rest => generateChildPaint node ++ generateChildPaintList rest

end

/-- generatePaintBody, as a line list: the root's own background, then each
child recursively. -/
def generatePaintBodyLines (root : IRNode) : List String :=
  generateNodePaint root "getLocalBounds().toFloat()" ++
    generateChildPaintList root.childrenL

def generatePaintBody (root : IRNode) : String :=
  String.intercalate "\n" (generatePaintBodyLines root)

/- ── utils/naming.ts ──────────────────────────────────────────────── -/

/-- Split a character list on runs of separator characters, dropping the
empty pieces (split(...).filter(Boolean)). Fuel-based like the tokenizer. -/
def splitSepsAux (sep : Char → Bool) : ℕ → List Char → List (List Char)
  | 0, _ => []
  | _, [] => []
  | fuel + 1, c :: cs =>
      if sep c then splitSepsAux sep fuel cs
      else
        (c :: cs.takeWhile (fun d => ¬ sep d)) ::
          splitSepsAux sep fuel (cs.dropWhile (fun d => ¬ sep d))

def splitSeps (sep : Char → Bool) (cs : List Char) : List (List Char) :=
  splitSepsAux sep cs.length cs

/-- Separators of the class-name word splitter: [\s_-]. -/
def isNameSep (c : Char) : Bool := jsWs c || c = '_' || c = '-'

/-- toClassName: strip to [a-zA-Z0-9\s_-], trim, PascalCase the words,
prefix C when the result starts with a digit. -/
def toClassName (name : String) : String :=
  let cleaned := trimStr ⟨name.data.filter (fun c =>
    c.isAlphanum || jsWs c || c = '_' || c = '-')⟩
  if cleaned = "" then "UnnamedComponent"
  else
    let words := splitSeps isNameSep cleaned.data
    let pascal := String.join (words.map (fun w =>
      match w with
      | [] => ""
      | c :: rest => String.mk (c.toUpper :: rest)))
    match pascal.data with
    | c :: _ => if c.isDigit then "C" ++ pascal else pascal
    | [] => pascal

/-- toVariableName: camelCase of the class name. -/
def toVariableName (name : String) : String :=
  match (toClassName name).data with
  | [] => ""
  | c :: rest => String.mk (c.toLower :: rest)

/- ── codegen/component-hints.ts ───────────────────────────────────── -/

structure ComponentHint where
  type : String
  style : Option String
  comment : String
deriving DecidableEq, Repr

/-- The RULES table: keyword and resulting hint, in source order. -/
def hintRules : List (String × ComponentHint) :=
  [("knob", ⟨"juce::Slider", some "Rotary", "Rotary knob"⟩),
   ("dial", ⟨"juce::Slider", some "Rotary", "Rotary dial"⟩),
   ("rotary", ⟨"juce::Slider", some "Rotary", "Rotary control"⟩),
   ("slider", ⟨"juce::Slider", some "LinearHorizontal", "Linear slider"⟩),
   ("fader", ⟨"juce::Slider", some "LinearVertical", "Vertical fader"⟩),
   ("toggle", ⟨"juce::ToggleButton", none, "Toggle button"⟩),
   ("bypass", ⟨"juce::ToggleButton", none, "Bypass toggle"⟩),
   ("switch", ⟨"juce::ToggleButton", none, "Switch toggle"⟩),
   ("textbutton", ⟨"juce::TextButton", none, "Text button"⟩),
   ("btn", ⟨"juce::TextButton", none, "Button"⟩),
   ("button", ⟨"juce::TextButton", none, "Button"⟩),
   ("label", ⟨"juce::Label", none, "Text label"⟩),
   ("title", ⟨"juce::Label", none, "Title label"⟩),
   ("combo", ⟨"juce::ComboBox", none, "Combo box"⟩),
   ("dropdown", ⟨"juce::ComboBox", none, "Dropdown selector"⟩),
   ("select", ⟨"juce::ComboBox", none, "Selector"⟩),
   ("menu", ⟨"juce::ComboBox", none, "Menu selector"⟩)]

/-- Separators of the hint boundary classes: whitespace, underscore, hyphen
and forward slash. -/
def isHintSep (c : Char) : Bool := jsWs c || c = '_' || c = '-' || c = '/'

/-- detectComponentHint. A rule regex of the form boundary-kw-boundary with
the i flag matches exactly when some separator-delimited token of the name
equals the keyword case-insensitively, which is how it is embedded here. -/
def detectComponentHint (nodeName : String) : Option ComponentHint :=
  (hintRules.find? (fun rule =>
    (splitSeps isHintSep nodeName.data).any (fun tok =>
      lowerAscii ⟨tok⟩ = rule.1))).map (·.2)

/- ── resize generator (generate-resized.ts) ───────────────────────── -/

def generateHorizontalConstraint (constraint : IRHorizontalConstraint)
    (relX width parentW : ℚ) (parentBoundsExpr : String) : String :=
  match constraint with
  | .left => parentBoundsExpr ++ ".getX() + " ++ toInt relX
  | .right =>
      parentBoundsExpr ++ ".getRight() - " ++ toInt (parentW - relX - width) ++
        " - " ++ toInt width
  | .center =>
      parentBoundsExpr ++ ".getCentreX() + " ++
        toInt (relX + width / 2 - parentW / 2) ++ " - " ++ toInt width ++ " / 2"
  | .leftRight => parentBoundsExpr ++ ".getX() + " ++ toInt relX
  | .scale =>
      parentBoundsExpr ++ ".getX() + (int)(" ++ parentBoundsExpr ++
        ".getWidth() * " ++ toFloat (if parentW > 0 then relX / parentW else 0) ++ ")"

def generateVerticalConstraint (constraint : IRVerticalConstraint)
    (relY height parentH : ℚ) (parentBoundsExpr : String) : String :=
  match constraint with
  | .top => parentBoundsExpr ++ ".getY() + " ++ toInt relY
  | .bottom =>
      parentBoundsExpr ++ ".getBottom() - " ++ toInt (parentH - relY - height) ++
        " - " ++ toInt height
  | .center =>
      parentBoundsExpr ++ ".getCentreY() + " ++
        toInt (relY + height / 2 - parentH / 2) ++ " - " ++ toInt height ++ " / 2"
  | .topBottom => parentBoundsExpr ++ ".getY() + " ++ toInt relY
  | .scale =>
      parentBoundsExpr ++ ".getY() + (int)(" ++ parentBoundsExpr ++
        ".getHeight() * " ++ toFloat (if parentH > 0 then relY / parentH else 0) ++ ")"

def generateWidthConstraint (constraint : IRHorizontalConstraint)
    (relX width parentW : ℚ) (parentBoundsExpr : String) : String :=
  match constraint with
  | .leftRight =>
      parentBoundsExpr ++ ".getWidth() - " ++ toInt relX ++ " - " ++
        toInt (parentW - relX - width)
  | .scale =>
      "(int)(" ++ parentBoundsExpr ++ ".getWidth() * " ++
        toFloat (if parentW > 0 then width / parentW else 0) ++ ")"
  | _ => toInt width

def generateHeightConstraint (constraint : IRVerticalConstraint)
    (relY height parentH : ℚ) (parentBoundsExpr : String) : String :=
  match constraint with
  | .topBottom =>
      parentBoundsExpr ++ ".getHeight() - " ++ toInt relY ++ " - " ++
        toInt (parentH - relY - height)
  | .scale =>
      "(int)(" ++ parentBoundsExpr ++ ".getHeight() * " ++
        toFloat (if parentH > 0 then height / parentH else 0) ++ ")"
  | _ => toInt height

def generateConstrainedBounds (child : IRNode) (c : IRConstraints)
    (parentW parentH : ℚ) (parentBoundsExpr : String) : List String :=
  let varName := toVariableName child.common.name
  let b := child.common.bounds
  ["auto " ++ varName ++ "Bounds = juce::Rectangle<int>(" ++
    generateHorizontalConstraint c.horizontal child.common.relativeX b.width parentW parentBoundsExpr ++
    ", " ++
    generateVerticalConstraint c.vertical child.common.relativeY b.height parentH parentBoundsExpr ++
    ", " ++
    generateWidthConstraint c.horizontal child.common.relativeX b.width parentW parentBoundsExpr ++
    ", " ++
    generateHeightConstraint c.vertical child.common.relativeY b.height parentH parentBoundsExpr ++
    ");"]

def generateAbsoluteLayout (children : List IRNode) (parentW parentH : ℚ)
    (parentBoundsExpr : String) : List String :=
  children.flatMap (fun child =>
    if ¬ child.visible then []
    else
      let varName := toVariableName child.common.name
      let b := child.common.bounds
      let xProp := if parentW > 0 then child.common.relativeX / parentW else 0
      let yProp := if parentH > 0 then child.common.relativeY / parentH else 0
      let wProp := if parentW > 0 then b.width / parentW else 0
      let hProp := if parentH > 0 then b.height / parentH else 0
      ["// " ++ child.common.name]
      ++ (match child.common.constraints with
          | some c => generateConstrainedBounds child c parentW parentH parentBoundsExpr
          | none =>
              ["auto " ++ varName ++ "Bounds = " ++ parentBoundsExpr ++
                 ".getProportion(juce::Rectangle<float>(" ++ toFloat xProp ++
                 ", " ++ toFloat yProp ++ ", " ++ toFloat wProp ++ ", " ++
                 toFloat hProp ++ "));"])
      ++ (match detectComponentHint child.common.name with
          | some _ => [varName ++ ".setBounds(" ++ varName ++ "Bounds.toNearestInt());"]
          | none => []))

def mapFlexDirection (mode : String) : String :=
  if mode = "horizontal" then "juce::FlexBox::Direction::row"
  else "juce::FlexBox::Direction::column"

/-- mapJustifyContent; the source switch has no default, so any other value
would interpolate to the text undefined. -/
def mapJustifyContent (align : String) : String :=
  if align = "min" then "juce::FlexBox::JustifyContent::flexStart"
  else if align = "center" then "juce::FlexBox::JustifyContent::center"
  else if align = "max" then "juce::FlexBox::JustifyContent::flexEnd"
  else if align = "spaceBetween" then "juce::FlexBox::JustifyContent::spaceBetween"
  else "undefined"

/-- mapAlignItems; baseline degrades to stretch, and the switch has no default. -/
def mapAlignItems (align : String) : String :=
  if align = "min" then "juce::FlexBox::AlignItems::flexStart"
  else if align = "center" then "juce::FlexBox::AlignItems::center"
  else if align = "max" then "juce::FlexBox::AlignItems::flexEnd"
  else if align = "baseline" then "juce::FlexBox::AlignItems::stretch"
  else "undefined"

/-- The fb.items.add line for one visible child at position i. -/
def flexItemLine (al : IRAutoLayout) (i : ℕ) (child : IRNode) : String :=
  let w := child.common.bounds.width
  let h := child.common.bounds.height
  let grow := child.common.layoutGrow.getD 0
  let itemExpr :=
    "juce::FlexItem(" ++ toFloat w ++ ", " ++ toFloat h ++ ")"
    ++ (if grow > 0 then ".withFlex(" ++ toFloat grow ++ ")" else "")
    ++ (if child.common.layoutAlign = some "stretch" then
          ".withAlignSelf(juce::FlexItem::AlignSelf::stretch)" else "")
    ++ (if al.itemSpacing > 0 ∧ i > 0 then
          if al.mode = "horizontal" then
            ".withMargin(juce::FlexItem::Margin(0.0f, 0.0f, 0.0f, " ++
              toFloat al.itemSpacing ++ "))"
          else
            ".withMargin(juce::FlexItem::Margin(" ++ toFloat al.itemSpacing ++
              ", 0.0f, 0.0f, 0.0f))"
        else "")
  "fb.items.add(" ++ itemExpr ++ ");"

/-- generateFlexBoxLayout. The source reads frame.autoLayout with a non-null
assertion and is only called when it is present; the none branch here is that
unreachable case. -/
def generateFlexBoxLayout (frame : IRNode) (boundsExpr : String) : List String :=
  match frame.autoLayoutOpt with
  | none => []
  | some al =>
      ["juce::FlexBox fb;",
       "fb.flexDirection = " ++ mapFlexDirection al.mode ++ ";",
       "fb.justifyContent = " ++ mapJustifyContent al.primaryAxisAlign ++ ";",
       "fb.alignItems = " ++ mapAlignItems al.counterAxisAlign ++ ";"]
      ++ (if al.wrap then ["fb.flexWrap = juce::FlexBox::Wrap::wrap;"] else [])
      ++ ((frame.childrenL.filter (·.visible)).enum.map (fun (i, child) =>
            flexItemLine al i child))
      ++ [if al.paddingTop > 0 ∨ al.paddingRight > 0 ∨ al.paddingBottom > 0 ∨
            al.paddingLeft > 0 then
            "fb.performLayout(" ++ boundsExpr ++ ".reduced(" ++
              toInt al.paddingLeft ++ ", " ++ toInt al.paddingTop ++ ", " ++
              toInt al.paddingRight ++ ", " ++ toInt al.paddingBottom ++ "));"
          else "fb.performLayout(" ++ boundsExpr ++ ");"]

/-- generateResizedBody. -/
def generateResizedBody (root : IRNode) : List String :=
  let rootW := root.common.bounds.width
  let rootH := root.common.bounds.height
  ["auto bounds = getLocalBounds();"]
  ++ (match root.autoLayoutOpt with
      | some _ => generateFlexBoxLayout root "bounds"
      | none => generateAbsoluteLayout root.childrenL rootW rootH "bounds")

/- ── Spec-side reference definitions ──────────────────────────────── -/

/-- Written from the claim: the color of the first solid fill (with a color)
anywhere in the style-level fill list, opaque black when there is none. -/
def specFirstSolidFillColor (fills : List FigmaPaint) : IRColor :=
  match fills.find? (fun f => f.type == "SOLID" && f.color.isSome) with
  | some f =>
      match f.color with
      | some c => convertColor c
      | none => ⟨0, 0, 0, 1⟩
  | none => ⟨0, 0, 0, 1⟩

/-- The amended text-color rule: only the head of the style-level fill list
is consulted, and it must be solid with a color; otherwise opaque black. -/
def specHeadFillColor (fills : Option (List FigmaPaint)) : IRColor :=
  match fills with
  | some (f :: _) =>
      if f.type = "SOLID" then
        match f.color with
        | some c => convertColor c
        | none => ⟨0, 0, 0, 1⟩
      else ⟨0, 0, 0, 1⟩
  | _ => ⟨0, 0, 0, 1⟩

/-- Written from the claim for C10: an IR stroke per visible solid paint with
a color; weight is the node-level stroke weight defaulting to 1. -/
def specConvertStrokes (strokes : Option (List FigmaPaint)) (strokeWeight : Option ℚ)
    (strokeAlign strokeCap strokeJoin : Option String) : List IRStroke :=
  match strokes with
  | none => []
  | some ss =>
      ss.filterMap (fun s =>
        match s.color with
        | some c =>
            if s.visible ≠ some false ∧ s.type = "SOLID" then
              some { color := convertColor c,
                     weight := strokeWeight.getD 1,
                     align := convertStrokeAlign strokeAlign,
                     cap := convertStrokeCap strokeCap,
                     join := convertStrokeJoin strokeJoin,
                     dashes := [],
                     opacity := s.opacity.getD 1,
                     visible := true }
            else none
        | none => none)

/-- Modelled from the spec: the emitted proportional-bounds computation
evaluates the four emitted factors against the parent's live runtime bounds
(the Rectangle::getProportion shape used by the generated code, which is
outside this repository). -/
def evalGetProportion (runtime : IRBounds) (px py pw ph : ℚ) : IRBounds :=
  { x := runtime.x + px * runtime.width,
    y := runtime.y + py * runtime.height,
    width := pw * runtime.width,
    height := ph * runtime.height }

/-- The proportional factors computed by generateAbsoluteLayout before
formatting (source lines: the four guarded divisions). -/
def proportionalFactors (parentW parentH relX relY w h : ℚ) : ℚ × ℚ × ℚ × ℚ :=
  (if parentW > 0 then relX / parentW else 0,
   if parentH > 0 then relY / parentH else 0,
   if parentW > 0 then w / parentW else 0,
   if parentH > 0 then h / parentH else 0)

/-- Written from the claim for C7: the cursor discipline — absolute commands
set the cursor to their endpoint, relative variants add their operands,
horizontal and vertical variants touch one axis, close does not move it. -/
def specCursorStep (cmd : SvgCommand) (x y : ℚ) : ℚ × ℚ :=
  match cmd.type with
  | 'M' => (argD cmd.args 0, argD cmd.args 1)
  | 'm' => (x + argD cmd.args 0, y + argD cmd.args 1)
  | 'L' => (argD cmd.args 0, argD cmd.args 1)
  | 'l' => (x + argD cmd.args 0, y + argD cmd.args 1)
  | 'H' => (argD cmd.args 0, y)
  | 'h' => (x + argD cmd.args 0, y)
  | 'V' => (x, argD cmd.args 0)
  | 'v' => (x, y + argD cmd.args 0)
  | 'C' => (argD cmd.args 4, argD cmd.args 5)
  | 'c' => (x + argD cmd.args 4, y + argD cmd.args 5)
  | 'Q' => (argD cmd.args 2, argD cmd.args 3)
  | 'q' => (x + argD cmd.args 2, y + argD cmd.args 3)
  | _ => (x, y)

/-- Written from the spec for C8: the fixed trailing margin,
parentSize − relOffset − size. -/
def specTrailingMargin (parentSize relOffset size : ℚ) : ℚ :=
  parentSize - relOffset - size

/- ── Line classifiers used by the ordering and balance claims ─────── -/

/-- Boolean string-prefix test, by character list. -/
def hasPre (p s : String) : Bool := p.data.isPrefixOf s.data

/-- A drop-shadow drawing operation inside a shadow scope. -/
def isShadowDrawLine (s : String) : Bool := hasPre "    shadow.drawForRectangle(" s

/-- A fill drawing operation (rect, rounded rect, ellipse, or path fill). -/
def isFillDrawLine (s : String) : Bool :=
  hasPre "g.fill" s || hasPre "    g.fillPath(" s

/-- A stroke drawing operation (shape outline or path stroke). -/
def isStrokeDrawLine (s : String) : Bool :=
  hasPre "g.drawRect(" s || hasPre "g.drawRoundedRectangle(" s ||
  hasPre "g.drawEllipse(" s || hasPre "    g.strokePath(" s

/-- A fb.performLayout call line. -/
def isPerformLayoutLine (s : String) : Bool := hasPre "fb.performLayout(" s

/-- Balance of a generated line list: exact opacity-scope opener lines match
closer lines, and per-path scope opener lines match closer lines. -/
def PaintBalanced (ls : List String) : Prop :=
  ls.count "g.saveState();" = ls.count "g.restoreState();" ∧
  ls.count "\x7b" = ls.count "\x7d"

/- ── Concrete fixtures used by counterexamples and witnesses ──────── -/

/-- A linear-gradient paint (with geometry present), used as a first fill
that is not solid. -/
def c1GradientPaint : FigmaPaint :=
  { type := "GRADIENT_LINEAR", visible := none, opacity := none, color := none,
    gradientHandlePositions := some [⟨0, 0⟩, ⟨1, 1⟩],
    gradientStops := some [⟨0, ⟨0, 0, 1, 1⟩⟩, ⟨1, ⟨0, 1, 0, 1⟩⟩],
    scaleMode := none, imageRef := none }

/-- A solid red paint. -/
def c1SolidRed : FigmaPaint :=
  { type := "SOLID", visible := none, opacity := none, color := some ⟨1, 0, 0, 1⟩,
    gradientHandlePositions := none, gradientStops := none,
    scaleMode := none, imageRef := none }

/-- A text style whose fill list is a gradient followed by a solid red. -/
def c1Style : FigmaTypeStyle :=
  { fontFamily := "Inter", fontWeight := 400, fontSize := 14,
    textAlignHorizontal := "LEFT", textAlignVertical := "TOP",
    letterSpacing := none, lineHeightPx := 17,
    fills := some [c1GradientPaint, c1SolidRed],
    italic := none, textDecoration := none, textCase := none }

/-- A linear-gradient paint whose stop list is absent. -/
def c3NoStopsPaint : FigmaPaint :=
  { type := "GRADIENT_LINEAR", visible := none, opacity := none, color := none,
    gradientHandlePositions := some [⟨0, 0⟩, ⟨1, 1⟩],
    gradientStops := none, scaleMode := none, imageRef := none }

/-- Common fields of a small concrete rectangle with one visible drop
shadow, one visible solid fill and one visible stroke. -/
def c5Common : NodeCommon :=
  { id := "r:1", name := "Panel", visible := true, opacity := 1,
    bounds := ⟨10, 10, 380, 280⟩, relativeX := 10, relativeY := 10,
    fills := [.solid ⟨1, 0, 0, 1⟩ 1 true],
    strokes := [{ color := ⟨1, 1, 1, 1⟩, weight := 2, align := "center",
                  cap := "none", join := "miter", dashes := [],
                  opacity := 1, visible := true }],
    effects := [.dropShadow ⟨0, 0, 0, 2 / 5⟩ ⟨0, 4⟩ 12 0 true],
    blendMode := "NORMAL", layoutAlign := none, layoutGrow := none,
    constraints := none }

def c5Node : IRNode := .rect c5Common ⟨8, 8, 8, 8, true⟩

/-- A visible unconstrained child at relativeX 1 in a 3-by-3 parent: the
exact x factor 1/3 is not representable in 4 decimal digits. -/
def c2Child : IRNode :=
  .rect { id := "r:2", name := "Panel", visible := true, opacity := 1,
          bounds := ⟨1, 0, 3, 3⟩, relativeX := 1, relativeY := 0,
          fills := [], strokes := [], effects := [], blendMode := "NORMAL",
          layoutAlign := none, layoutGrow := none, constraints := none }
        ⟨0, 0, 0, 0, true⟩

/-- An auto-layout descriptor with all four paddings zero. -/
def c9LayoutZero : IRAutoLayout :=
  { mode := "horizontal", primaryAxisAlign := "min", counterAxisAlign := "min",
    paddingTop := 0, paddingRight := 0, paddingBottom := 0, paddingLeft := 0,
    itemSpacing := 8, primaryAxisSizing := "fixed", counterAxisSizing := "fixed",
    wrap := false }

/-- The same descriptor with a positive left padding. -/
def c9LayoutPadded : IRAutoLayout :=
  { c9LayoutZero with paddingLeft := 16, paddingTop := 4 }

def c9CommonBase : NodeCommon :=
  { id := "f:1", name := "Row", visible := true, opacity := 1,
    bounds := ⟨0, 0, 400, 100⟩, relativeX := 0, relativeY := 0,
    fills := [], strokes := [], effects := [], blendMode := "NORMAL",
    layoutAlign := none, layoutGrow := none, constraints := none }

def c9FrameZero : IRNode :=
  .frame c9CommonBase "frame" [c2Child] ⟨0, 0, 0, 0, true⟩ true (some c9LayoutZero)

def c9FramePadded : IRNode :=
  .frame c9CommonBase "frame" [c2Child] ⟨0, 0, 0, 0, true⟩ true (some c9LayoutPadded)

/- ══ Theorems ═══════════════════════════════════════════════════════ -/

/- ── Generic string-prefix facts ──────────────────────────────────── -/

theorem str_data_append (a b : String) : (a ++ b).data = a.data ++ b.data := rfl

theorem isPrefixOf_append_of_le (p a b : List Char) (h : p.length ≤ a.length) :
    p.isPrefixOf (a ++ b) = p.isPrefixOf a := by
  induction p generalizing a with
  | nil => simp [List.isPrefixOf]
  | cons c p ih =>
      cases a with
      | nil => simp at h
      | cons d a =>
          simp only [List.cons_append, List.isPrefixOf]
          rw [show a.append b = a ++ b from rfl,
            ih a (by simpa using Nat.le_of_succ_le_succ h)]

theorem hasPre_append (p a b : String) (h : p.data.length ≤ a.data.length) :
    hasPre p (a ++ b) = hasPre p a := by
  simp only [hasPre, str_data_append]
  exact isPrefixOf_append_of_le _ _ _ h

theorem isPrefixOf_self_append (p x : List Char) : p.isPrefixOf (p ++ x) = true := by
  induction p with
  | nil => simp [List.isPrefixOf]
  | cons c p ih => simp [List.isPrefixOf, ih]

theorem hasPre_lit (lit x : String) : hasPre lit (lit ++ x) = true := by
  simp only [hasPre, str_data_append]
  exact isPrefixOf_self_append _ _

/-- A string with a known literal head differs from any string of which that
head is not a prefix. -/
theorem ne_lit (lit x t : String) (h : hasPre lit t = false) : lit ++ x ≠ t := by
  intro he
  rw [← he] at h
  rw [hasPre_lit] at h
  simp at h

/- ── List counting facts ──────────────────────────────────────────── -/

theorem count_cons_ne {s t : String} (h : s ≠ t) (l : List String) :
    (s :: l).count t = l.count t := by
  rw [List.count_cons]
  simp [h]

theorem count_cons_self (s : String) (l : List String) :
    (s :: l).count s = l.count s + 1 := by
  rw [List.count_cons]
  simp

theorem paintBalanced_nil : PaintBalanced [] := by constructor <;> rfl

theorem paintBalanced_append {A B : List String}
    (hA : PaintBalanced A) (hB : PaintBalanced B) : PaintBalanced (A ++ B) := by
  obtain ⟨a1, a2⟩ := hA
  obtain ⟨b1, b2⟩ := hB
  constructor <;> simp [List.count_append, a1, a2, b1, b2]

theorem paintBalanced_flatMap {α : Type} (f : α → List String) (l : List α)
    (h : ∀ x, PaintBalanced (f x)) : PaintBalanced (l.flatMap f) := by
  induction l with
  | nil => exact paintBalanced_nil
  | cons x xs ih => exact paintBalanced_append (h x) ih

/- ── findIdx facts ────────────────────────────────────────────────── -/

theorem findIdx_append_none {p : String → Bool} {A : List String}
    (B : List String) (h : ∀ s ∈ A, p s = false) :
    (A ++ B).findIdx p = A.length + B.findIdx p := by
  induction A with
  | nil => simp
  | cons a as ih =>
      have ha : p a = false := h a (by simp)
      simp only [List.cons_append, List.findIdx_cons, ha, cond_false,
        List.length_cons]
      rw [ih (fun s hs => h s (by simp [hs]))]
      omega

theorem findIdx_append_any {p : String → Bool} {A : List String}
    (B : List String) (h : A.any p = true) :
    (A ++ B).findIdx p = A.findIdx p := by
  induction A with
  | nil => simp at h
  | cons a as ih =>
      by_cases ha : p a
      · simp [List.findIdx_cons, ha]
      · simp only [List.any_cons, Bool.or_eq_true] at h
        rcases h with h | h
        · exact absurd h ha
        · simp only [List.cons_append, List.findIdx_cons,
            Bool.not_eq_true] at ha ⊢
          rw [ha]
          simp only [cond_false]
          rw [ih h]

theorem findIdx_lt_of_any {p : String → Bool} {A : List String}
    (h : A.any p = true) : A.findIdx p < A.length := by
  induction A with
  | nil => simp at h
  | cons a as ih =>
      by_cases ha : p a
      · simp [List.findIdx_cons, ha]
      · simp only [List.any_cons, Bool.or_eq_true] at h
        rcases h with h | h
        · exact absurd h ha
        · simp only [List.findIdx_cons, Bool.not_eq_true] at ha ⊢
          rw [ha]
          simpa using Nat.succ_lt_succ (ih h)

theorem str_append_assoc (a b c : String) : (a ++ b) ++ c = a ++ (b ++ c) := by
  cases a with
  | mk da =>
      cases b with
      | mk db =>
          cases c with
          | mk dc => exact congrArg String.mk (List.append_assoc da db dc)

theorem str_append_empty (a : String) : a ++ "" = a := by
  cases a with
  | mk da => exact congrArg String.mk (List.append_nil da)

theorem append_ne_empty (lit x : String) (h : lit.data ≠ []) : lit ++ x ≠ "" := by
  intro he
  have hd : (lit ++ x).data = ([] : List Char) := by rw [he]
  rw [str_data_append, List.append_eq_nil] at hd
  exact h hd.1

theorem joinLines_head_ex (a : String) (l : List String) :
    ∃ y, joinLines (a :: l) = a ++ y := by
  cases l with
  | nil => exact ⟨"", (str_append_empty a).symm⟩
  | cons b rest => exact ⟨"\n" ++ joinLines (b :: rest), str_append_assoc _ _ _⟩

theorem not_prefix_append (t lit x : List Char)
    (h1 : t.isPrefixOf lit = false) (h2 : lit.isPrefixOf t = false) :
    t.isPrefixOf (lit ++ x) = false := by
  by_contra hc
  rw [Bool.not_eq_false, List.isPrefixOf_iff_prefix] at hc
  rcases Nat.le_total t.length lit.length with hl | hl
  · have ht : t <+: lit :=
      List.prefix_of_prefix_length_le hc (lit.prefix_append x) hl
    rw [← List.isPrefixOf_iff_prefix] at ht
    rw [ht] at h1
    simp at h1
  · have ht : lit <+: t :=
      List.prefix_of_prefix_length_le (lit.prefix_append x) hc hl
    rw [← List.isPrefixOf_iff_prefix] at ht
    rw [ht] at h2
    simp at h2

theorem trimEnd_data_pre (s : String) : (trimEnd s).data <+: s.data := by
  show ((s.data.reverse.dropWhile jsWs).reverse : List Char) <+: s.data
  have hsuf : s.data.reverse.dropWhile jsWs <:+ s.data.reverse :=
    List.dropWhile_suffix jsWs
  have := List.reverse_prefix.mpr (by simpa using hsuf)
  simpa using this

theorem trimEnd_lit_ne (lit x t : String)
    (h1 : t.data.isPrefixOf lit.data = false)
    (h2 : lit.data.isPrefixOf t.data = false) :
    trimEnd (lit ++ x) ≠ t := by
  intro he
  have hp : t.data <+: (lit ++ x).data := he ▸ trimEnd_data_pre (lit ++ x)
  rw [str_data_append] at hp
  rw [← List.isPrefixOf_iff_prefix] at hp
  rw [not_prefix_append t.data lit.data x.data h1 h2] at hp
  simp at hp

theorem count_zero_of_forall_ne {l : List String} {t : String}
    (h : ∀ s ∈ l, s ≠ t) : l.count t = 0 := by
  rw [List.count_eq_zero]
  intro hm
  exact h t hm rfl

theorem hasPre_append_false (P lit x : String)
    (h1 : P.data.isPrefixOf lit.data = false)
    (h2 : lit.data.isPrefixOf P.data = false) :
    hasPre P (lit ++ x) = false := by
  simp only [hasPre, str_data_append]
  exact not_prefix_append _ _ _ h1 h2

theorem hasPre_trimEnd_false (P lit x : String)
    (h1 : P.data.isPrefixOf lit.data = false)
    (h2 : lit.data.isPrefixOf P.data = false) :
    hasPre P (trimEnd (lit ++ x)) = false := by
  by_contra hc
  rw [Bool.not_eq_false] at hc
  have hp1 : P.data <+: (trimEnd (lit ++ x)).data :=
    List.isPrefixOf_iff_prefix.mp hc
  have hp2 : P.data <+: (lit ++ x).data :=
    hp1.trans (trimEnd_data_pre (lit ++ x))
  rw [str_data_append, ← List.isPrefixOf_iff_prefix,
    not_prefix_append _ _ _ h1 h2] at hp2
  simp at hp2

/-- Every nonempty fill-code string starts with one of three fixed heads. -/
theorem fillCode_head (fill : IRFill) (b : String) :
    generateFillCode fill b = "" ∨
    (∃ x, generateFillCode fill b = "g.setColour(" ++ x) ∨
    (∃ x, generateFillCode fill b = "juce::ColourGradient gradient(" ++ x) ∨
    (∃ x, generateFillCode fill b = "if (" ++ x) := by
  unfold generateFillCode
  by_cases hv : fill.visible
  · rw [if_neg (by simp [hv])]
    cases fill with
    | solid color opacity visible =>
        refine Or.inr (Or.inl ⟨generateColourWithOpacity color opacity ++ ");\n", ?_⟩)
        simp [generateSolidFillCode, str_append_assoc]
    | linearGradient start stop stops opacity visible =>
        match stops with
        | [] => exact Or.inl (by simp [generateLinearGradientCode])
        | [s0] => exact Or.inl (by simp [generateLinearGradientCode])
        | s0 :: s1 :: rest =>
            refine Or.inr (Or.inr (Or.inl ?_))
            simp only [generateLinearGradientCode, gradientLines,
              List.append_assoc, List.cons_append, List.nil_append]
            obtain ⟨y, hy⟩ := joinLines_head_ex _ _
            rw [hy]
            simp only [str_append_assoc]
            exact ⟨_, rfl⟩
    | radialGradient center radius stops opacity visible =>
        match stops with
        | [] => exact Or.inl (by simp [generateRadialGradientCode])
        | [s0] => exact Or.inl (by simp [generateRadialGradientCode])
        | s0 :: s1 :: rest =>
            refine Or.inr (Or.inr (Or.inl ?_))
            simp only [generateRadialGradientCode, gradientLines,
              List.append_assoc, List.cons_append, List.nil_append]
            obtain ⟨y, hy⟩ := joinLines_head_ex _ _
            rw [hy]
            simp only [str_append_assoc]
            exact ⟨_, rfl⟩
    | image imageRef scaleMode opacity visible =>
        refine Or.inr (Or.inr (Or.inr ?_))
        simp only [generateImageFillCode, List.append_assoc, List.cons_append,
          List.nil_append]
        obtain ⟨y, hy⟩ := joinLines_head_ex _ _
        rw [hy]
        simp only [str_append_assoc]
        exact ⟨_, rfl⟩
  · simp [hv]

/- ── Balance of each paint sub-generator (claim C4 machinery) ─────── -/

theorem paintBalanced_cons_neutral (a : String) (X : List String)
    (h1 : a ≠ "g.saveState();") (h2 : a ≠ "g.restoreState();")
    (h3 : a ≠ "\x7b") (h4 : a ≠ "\x7d") (hX : PaintBalanced X) :
    PaintBalanced (a :: X) := by
  obtain ⟨x1, x2⟩ := hX
  refine ⟨?_, ?_⟩ <;> simp [List.count_cons, beq_iff_eq, h1, h2, h3, h4, x1, x2]

theorem strokeShapeLine_ne (n : IRNode) (b : String) (s : IRStroke) (t : String)
    (h1 : hasPre "g.drawEllipse(" t = false)
    (h2 : hasPre "g.drawRoundedRectangle(" t = false)
    (h3 : hasPre "g.drawRect(" t = false) :
    strokeShapeLine n b s ≠ t := by
  unfold strokeShapeLine
  cases n <;> simp only [str_append_assoc] <;>
    first
      | exact ne_lit _ _ _ h1
      | exact ne_lit _ _ _ h2
      | exact ne_lit _ _ _ h3
      | (split <;>
          first
            | exact ne_lit _ _ _ h2
            | exact ne_lit _ _ _ h3)

theorem bal_dropShadows (n : IRNode) : PaintBalanced (generateDropShadows n) := by
  unfold generateDropShadows
  apply paintBalanced_flatMap
  intro e
  cases e with
  | dropShadow color offset radius spread vis =>
      cases vis
      · simpa using paintBalanced_nil
      · refine ⟨?_, ?_⟩ <;>
          simp +decide [str_append_assoc, List.count_cons, beq_iff_eq, ne_lit]
  | innerShadow color offset radius spread vis => simpa using paintBalanced_nil
  | layerBlur radius vis => simpa using paintBalanced_nil
  | backgroundBlur radius vis => simpa using paintBalanced_nil

theorem bal_innerShadows (n : IRNode) (b : String) :
    PaintBalanced (generateInnerShadows n b) := by
  unfold generateInnerShadows
  apply paintBalanced_flatMap
  intro e
  cases e with
  | innerShadow color offset radius spread vis =>
      cases vis
      · simpa using paintBalanced_nil
      · refine ⟨?_, ?_⟩ <;>
          simp +decide [str_append_assoc, List.count_cons, beq_iff_eq, ne_lit]
  | dropShadow color offset radius spread vis => simpa using paintBalanced_nil
  | layerBlur radius vis => simpa using paintBalanced_nil
  | backgroundBlur radius vis => simpa using paintBalanced_nil

theorem bal_blurs (n : IRNode) : PaintBalanced (generateBlurEffects n) := by
  unfold generateBlurEffects
  apply paintBalanced_flatMap
  intro e
  cases e with
  | layerBlur radius vis =>
      cases vis
      · simpa using paintBalanced_nil
      · refine ⟨?_, ?_⟩ <;>
          simp +decide [str_append_assoc, List.count_cons, beq_iff_eq, ne_lit]
  | backgroundBlur radius vis =>
      cases vis
      · simpa using paintBalanced_nil
      · refine ⟨?_, ?_⟩ <;>
          simp +decide [str_append_assoc, List.count_cons, beq_iff_eq, ne_lit]
  | dropShadow color offset radius spread vis => simpa using paintBalanced_nil
  | innerShadow color offset radius spread vis => simpa using paintBalanced_nil

theorem bal_strokes (n : IRNode) (b : String) :
    PaintBalanced (generateStrokes n b) := by
  unfold generateStrokes
  apply paintBalanced_flatMap
  intro s
  cases hv : s.visible
  · simpa [hv] using paintBalanced_nil
  · have e1 := strokeShapeLine_ne n b s "g.saveState();" (by decide) (by decide) (by decide)
    have e2 := strokeShapeLine_ne n b s "g.restoreState();" (by decide) (by decide) (by decide)
    have e3 := strokeShapeLine_ne n b s "\x7b" (by decide) (by decide) (by decide)
    have e4 := strokeShapeLine_ne n b s "\x7d" (by decide) (by decide) (by decide)
    refine ⟨?_, ?_⟩ <;>
      simp +decide [hv, str_append_assoc, List.count_cons, beq_iff_eq, ne_lit,
        e1, e2, e3, e4]

theorem bal_textDraw (n : IRNode) (b : String) :
    PaintBalanced (generateTextDraw n b) := by
  cases n with
  | text c characters style autoResize =>
      refine ⟨?_, ?_⟩ <;> simp only [generateTextDraw] <;> split <;>
        simp +decide [str_append_assoc, List.count_cons, List.count_append,
          beq_iff_eq, ne_lit]
  | frame c ftype children cornerRadius clipsContent autoLayout =>
      simpa [generateTextDraw] using paintBalanced_nil
  | group c children => simpa [generateTextDraw] using paintBalanced_nil
  | rect c cornerRadius => simpa [generateTextDraw] using paintBalanced_nil
  | ellipse c => simpa [generateTextDraw] using paintBalanced_nil
  | vector c vtype paths => simpa [generateTextDraw] using paintBalanced_nil

theorem hasPre_trans_false (p q t : String) (hp : hasPre p q = true)
    (ht : hasPre p t = false) : hasPre q t = false := by
  by_contra hc
  rw [Bool.not_eq_false] at hc
  have h1 : p.data <+: q.data := List.isPrefixOf_iff_prefix.mp hp
  have h2 : q.data <+: t.data := List.isPrefixOf_iff_prefix.mp hc
  have h3 : p.data.isPrefixOf t.data = true :=
    List.isPrefixOf_iff_prefix.mpr (h1.trans h2)
  simp only [hasPre] at ht
  rw [h3] at ht
  simp at ht

theorem bal_perCorner (b : String) (cr : IRCornerRadius) :
    PaintBalanced (perCornerRoundedRect b cr) := by
  unfold perCornerRoundedRect
  refine ⟨?_, ?_⟩ <;> dsimp only <;> split <;>
    simp +decide [str_append_assoc, List.count_cons, beq_iff_eq, ne_lit]

/-- The four tracked scope strings are never produced by a trimmed fill code. -/
theorem trimEnd_fillCode_ne (fill : IRFill) (b t : String)
    (h1 : t.data.isPrefixOf "g.setColour(".data = false)
    (h2 : ("g.setColour(").data.isPrefixOf t.data = false)
    (h3 : t.data.isPrefixOf "juce::ColourGradient gradient(".data = false)
    (h4 : ("juce::ColourGradient gradient(").data.isPrefixOf t.data = false)
    (h5 : t.data.isPrefixOf "if (".data = false)
    (h6 : ("if (").data.isPrefixOf t.data = false)
    (hne : generateFillCode fill b ≠ "") :
    trimEnd (generateFillCode fill b) ≠ t := by
  rcases fillCode_head fill b with h | ⟨x, hx⟩ | ⟨x, hx⟩ | ⟨x, hx⟩
  · exact absurd h hne
  · rw [hx]; exact trimEnd_lit_ne _ _ _ h1 h2
  · rw [hx]; exact trimEnd_lit_ne _ _ _ h3 h4
  · rw [hx]; exact trimEnd_lit_ne _ _ _ h5 h6

theorem bal_rectPaint (fills : List IRFill) (cr : IRCornerRadius) (b : String) :
    PaintBalanced (generateRectPaint fills cr b) := by
  unfold generateRectPaint
  apply paintBalanced_flatMap
  intro fill
  cases hv : fill.visible
  · simpa [hv] using paintBalanced_nil
  · rw [if_neg (by simp [hv])]
    by_cases he : generateFillCode fill b = ""
    · rw [if_pos he]; exact paintBalanced_nil
    · rw [if_neg he]
      have t1 := trimEnd_fillCode_ne fill b "g.saveState();" (by decide) (by decide)
        (by decide) (by decide) (by decide) (by decide) he
      have t2 := trimEnd_fillCode_ne fill b "g.restoreState();" (by decide) (by decide)
        (by decide) (by decide) (by decide) (by decide) he
      have t3 := trimEnd_fillCode_ne fill b "\x7b" (by decide) (by decide)
        (by decide) (by decide) (by decide) (by decide) he
      have t4 := trimEnd_fillCode_ne fill b "\x7d" (by decide) (by decide)
        (by decide) (by decide) (by decide) (by decide) he
      rw [show ([trimEnd (generateFillCode fill b)] : List String) ++
          (if hasRounding cr = true then
            if cr.isUniform = true then
              ["g.fillRoundedRectangle(" ++ b ++ ", " ++ toFloat cr.topLeft ++ ");"]
            else perCornerRoundedRect b cr
          else ["g.fillRect(" ++ b ++ ");"]) =
          trimEnd (generateFillCode fill b) ::
          (if hasRounding cr = true then
            if cr.isUniform = true then
              ["g.fillRoundedRectangle(" ++ b ++ ", " ++ toFloat cr.topLeft ++ ");"]
            else perCornerRoundedRect b cr
          else ["g.fillRect(" ++ b ++ ");"]) from rfl]
      apply paintBalanced_cons_neutral _ _ t1 t2 t3 t4
      split
      · split
        · refine ⟨?_, ?_⟩ <;>
            simp +decide [str_append_assoc, List.count_cons, beq_iff_eq, ne_lit]
        · exact bal_perCorner b cr
      · refine ⟨?_, ?_⟩ <;>
          simp +decide [str_append_assoc, List.count_cons, beq_iff_eq, ne_lit]

theorem bal_ellipsePaint (fills : List IRFill) (b : String) :
    PaintBalanced (generateEllipsePaint fills b) := by
  unfold generateEllipsePaint
  apply paintBalanced_flatMap
  intro fill
  cases hv : fill.visible
  · simpa [hv] using paintBalanced_nil
  · rw [if_neg (by simp [hv])]
    by_cases he : generateFillCode fill b = ""
    · rw [if_pos he]; exact paintBalanced_nil
    · rw [if_neg he]
      have t1 := trimEnd_fillCode_ne fill b "g.saveState();" (by decide) (by decide)
        (by decide) (by decide) (by decide) (by decide) he
      have t2 := trimEnd_fillCode_ne fill b "g.restoreState();" (by decide) (by decide)
        (by decide) (by decide) (by decide) (by decide) he
      have t3 := trimEnd_fillCode_ne fill b "\x7b" (by decide) (by decide)
        (by decide) (by decide) (by decide) (by decide) he
      have t4 := trimEnd_fillCode_ne fill b "\x7d" (by decide) (by decide)
        (by decide) (by decide) (by decide) (by decide) he
      apply paintBalanced_cons_neutral _ _ t1 t2 t3 t4
      refine ⟨?_, ?_⟩ <;>
        simp +decide [str_append_assoc, List.count_cons, beq_iff_eq, ne_lit]

/-- No line of a per-path scope body (between its braces) starts with
anything but four spaces, so the tracked scope strings never occur there. -/
theorem bal_pathBlock (fills : List IRFill) (strokes : List IRStroke)
    (b varName : String) (p : IRPathData) :
    PaintBalanced (pathBlock fills strokes b varName p) := by
  unfold pathBlock
  have hmap : ∀ t : String, hasPre "    " t = false →
      (((svgToJucePath p varName).map (fun l => "    " ++ l)).count t) = 0 := by
    intro t ht
    apply count_zero_of_forall_ne
    intro s hs
    rw [List.mem_map] at hs
    obtain ⟨l, _, rfl⟩ := hs
    exact ne_lit _ _ _ ht
  have hwind : ∀ t : String, hasPre "    " t = false →
      ((if p.windingRule = "evenodd" then
          ["    " ++ varName ++ ".setUsingNonZeroWinding(false);"]
        else []).count t) = 0 := by
    intro t ht
    split
    · simp only [str_append_assoc]
      exact count_zero_of_forall_ne (by
        intro s hs
        simp only [List.mem_singleton] at hs
        subst hs
        exact ne_lit _ _ _ ht)
    · rfl
  have hfills : ∀ t : String, hasPre "    " t = false →
      ((fills.flatMap (fun fill =>
          if ¬ fill.visible then []
          else
            if generateFillCode fill b = "" then []
            else ["    " ++ trimEnd (generateFillCode fill b),
                  "    g.fillPath(" ++ varName ++ ");"])).count t) = 0 := by
    intro t ht
    apply count_zero_of_forall_ne
    intro s hs
    rw [List.mem_flatMap] at hs
    obtain ⟨fill, _, hsf⟩ := hs
    by_cases hv : fill.visible = true
    · rw [if_neg (by simp [hv])] at hsf
      by_cases he : generateFillCode fill b = ""
      · simp only [he, if_pos] at hsf
        simp at hsf
      · rw [if_neg he] at hsf
        simp only [List.mem_cons, List.mem_singleton] at hsf
        rcases hsf with rfl | hsf
        · exact ne_lit _ _ _ ht
        · rcases hsf with rfl | hsf
          · simp only [str_append_assoc]
            exact ne_lit _ _ _ (hasPre_trans_false "    " _ _ (by decide) ht)
          · simp at hsf
    · rw [if_pos (by simp [hv])] at hsf
      simp at hsf
  have hstrokes : ∀ t : String, hasPre "    " t = false →
      ((strokes.flatMap (fun stroke =>
          if ¬ stroke.visible then []
          else
            ["    g.setColour(" ++ generateColourWithOpacity stroke.color stroke.opacity ++ ");",
             "    g.strokePath(" ++ varName ++ ", juce::PathStrokeType(" ++
               toFloat stroke.weight ++ "));"])).count t) = 0 := by
    intro t ht
    apply count_zero_of_forall_ne
    intro s hs
    rw [List.mem_flatMap] at hs
    obtain ⟨stroke, _, hsf⟩ := hs
    by_cases hv : stroke.visible = true
    · rw [if_neg (by simp [hv])] at hsf
      simp only [List.mem_cons, List.mem_singleton] at hsf
      rcases hsf with rfl | hsf
      · simp only [str_append_assoc]
        exact ne_lit _ _ _ (hasPre_trans_false "    " _ _ (by decide) ht)
      · rcases hsf with rfl | hsf
        · simp only [str_append_assoc]
          exact ne_lit _ _ _ (hasPre_trans_false "    " _ _ (by decide) ht)
        · simp at hsf
    · rw [if_pos (by simp [hv])] at hsf
      simp at hsf
  have m1 := hmap "g.saveState();" (by decide)
  have m2 := hmap "g.restoreState();" (by decide)
  have m3 := hmap "\x7b" (by decide)
  have m4 := hmap "\x7d" (by decide)
  have w1 := hwind "g.saveState();" (by decide)
  have w2 := hwind "g.restoreState();" (by decide)
  have w3 := hwind "\x7b" (by decide)
  have w4 := hwind "\x7d" (by decide)
  have f1 := hfills "g.saveState();" (by decide)
  have f2 := hfills "g.restoreState();" (by decide)
  have f3 := hfills "\x7b" (by decide)
  have f4 := hfills "\x7d" (by decide)
  have k1 := hstrokes "g.saveState();" (by decide)
  have k2 := hstrokes "g.restoreState();" (by decide)
  have k3 := hstrokes "\x7b" (by decide)
  have k4 := hstrokes "\x7d" (by decide)
  refine ⟨?_, ?_⟩ <;>
    simp only [List.cons_append, List.nil_append, List.count_cons,
      List.count_append, m1, m2, m3, m4, w1, w2, w3, w4, f1, f2, f3, f4,
      k1, k2, k3, k4] <;>
    simp +decide [beq_iff_eq, str_append_assoc, ne_lit]

theorem bal_pathDraw (n : IRNode) (b : String) :
    PaintBalanced (generatePathDraw n b) := by
  unfold generatePathDraw
  apply paintBalanced_flatMap
  intro x
  obtain ⟨i, p⟩ := x
  exact bal_pathBlock _ _ _ _ _

theorem bal_nodePaint (n : IRNode) (b : String) :
    PaintBalanced (generateNodePaint n b) := by
  cases n with
  | rect c cr => exact bal_rectPaint c.fills cr b
  | frame c ftype children cr clips al => exact bal_rectPaint c.fills cr b
  | ellipse c => exact bal_ellipsePaint c.fills b
  | text c characters style autoResize =>
      exact bal_textDraw (IRNode.text c characters style autoResize) b
  | vector c vtype paths =>
      exact bal_pathDraw (IRNode.vector c vtype paths) b
  | group c children => exact paintBalanced_nil

/- ── Opacity scope counts ─────────────────────────────────────────── -/

theorem opacity_counts (n : IRNode) (b : String) :
    (opacityPre n b).count "g.saveState();" = (opacityPost n).count "g.restoreState();" ∧
    (opacityPre n b).count "g.restoreState();" = 0 ∧
    (opacityPost n).count "g.saveState();" = 0 ∧
    (opacityPre n b).count "\x7b" = 0 ∧
    (opacityPre n b).count "\x7d" = 0 ∧
    (opacityPost n).count "\x7b" = 0 ∧
    (opacityPost n).count "\x7d" = 0 := by
  unfold opacityPre opacityPost
  by_cases h : n.common.opacity < 1 <;>
    simp +decide [h, str_append_assoc, List.count_cons, beq_iff_eq, ne_lit]

/- ── Whole-tree balance ───────────────────────────────────────────── -/

/-- generateChildPaint for a visible node is balanced whenever its
child-recursion segment is. -/
theorem bal_wrap (n : IRNode) (CH : List String) (hch : PaintBalanced CH)
    (hEq : generateChildPaint n =
      if ¬ n.visible then []
      else
        opacityPre n (nodeBoundsExpr n)
        ++ generateDropShadows n
        ++ generateNodePaint n (nodeBoundsExpr n)
        ++ generateInnerShadows n (nodeBoundsExpr n)
        ++ generateBlurEffects n
        ++ generateStrokes n (nodeBoundsExpr n)
        ++ CH
        ++ opacityPost n) :
    PaintBalanced (generateChildPaint n) := by
  rw [hEq]
  by_cases hv : n.visible = true
  · rw [if_neg (by simp [hv])]
    obtain ⟨o1, o2, o3, o4, o5, o6, o7⟩ := opacity_counts n (nodeBoundsExpr n)
    obtain ⟨d1, d2⟩ := bal_dropShadows n
    obtain ⟨n1, n2⟩ := bal_nodePaint n (nodeBoundsExpr n)
    obtain ⟨i1, i2⟩ := bal_innerShadows n (nodeBoundsExpr n)
    obtain ⟨b1, b2⟩ := bal_blurs n
    obtain ⟨s1, s2⟩ := bal_strokes n (nodeBoundsExpr n)
    obtain ⟨c1, c2⟩ := hch
    refine ⟨?_, ?_⟩ <;> simp only [List.count_append] <;> omega
  · rw [if_pos (by simp [hv])]
    exact paintBalanced_nil

mutual

theorem bal_childPaint (n : IRNode) : PaintBalanced (generateChildPaint n) := by
  cases n with
  | frame c ftype children cr clips al =>
      exact bal_wrap _ (generateChildPaintList children)
        (bal_childPaintList children) (by rw [generateChildPaint])
  | group c children =>
      exact bal_wrap _ (generateChildPaintList children)
        (bal_childPaintList children) (by rw [generateChildPaint])
  | rect c cr =>
      exact bal_wrap _ [] paintBalanced_nil
        (by rw [generateChildPaint] <;> intros <;> simp_all)
  | ellipse c =>
      exact bal_wrap _ [] paintBalanced_nil
        (by rw [generateChildPaint] <;> intros <;> simp_all)
  | text c characters style autoResize =>
      exact bal_wrap _ [] paintBalanced_nil
        (by rw [generateChildPaint] <;> intros <;> simp_all)
  | vector c vtype paths =>
      exact bal_wrap _ [] paintBalanced_nil
        (by rw [generateChildPaint] <;> intros <;> simp_all)

theorem bal_childPaintList (l : List IRNode) :
    PaintBalanced (generateChildPaintList l) := by
  match l with
  | [] =>
      rw [generateChildPaintList]
      exact paintBalanced_nil
  | n :: rest =>
      rw [generateChildPaintList]
      exact paintBalanced_append (bal_childPaint n) (bal_childPaintList rest)

end

/- ── Ordering machinery (claim C5) ────────────────────────────────── -/

theorem findIdx_eq_length_of_none {p : String → Bool} {A : List String}
    (h : ∀ s ∈ A, p s = false) : A.findIdx p = A.length := by
  have := findIdx_append_none ([] : List String) h
  simpa using this

theorem isPrefixOf_append_cancel (a p x : List Char) :
    (a ++ p).isPrefixOf (a ++ x) = p.isPrefixOf x := by
  induction a with
  | nil => rfl
  | cons c a ih => simp [List.isPrefixOf, ih]

theorem hasPre_cancel (a p x : String) :
    hasPre (a ++ p) (a ++ x) = hasPre p x := by
  simp only [hasPre, str_data_append]
  exact isPrefixOf_append_cancel _ _ _

/-- Every line the path translator emits starts with the path variable name. -/
theorem svgStep_line_shape (v : String) (cmd : SvgCommand) (x y : ℚ) :
    ∀ l ∈ (svgStep v cmd x y).1, ∃ z, l = v ++ z := by
  unfold svgStep
  split <;> intro l hl <;>
    simp only [List.mem_singleton, List.mem_cons, List.not_mem_nil,
      or_false] at hl <;>
    first
      | exact hl.elim
      | (subst hl; try simp only [str_append_assoc]
         exact ⟨_, rfl⟩)

theorem svgRun_line_shape (v : String) (cmds : List SvgCommand) (x y : ℚ) :
    ∀ l ∈ (svgRun v cmds x y).1, ∃ z, l = v ++ z := by
  induction cmds generalizing x y with
  | nil => intro l hl; simp [svgRun] at hl
  | cons cmd rest ih =>
      intro l hl
      rw [svgRun] at hl
      simp only [List.mem_append] at hl
      rcases hl with hl | hl
      · exact svgStep_line_shape v cmd x y l hl
      · exact ih _ _ l hl

/-- A trimmed fill code never matches a classifier prefix that is
incompatible with all three fill-code heads. -/
theorem hasPre_trimEnd_fillCode (fill : IRFill) (b P : String)
    (h0 : hasPre P "" = false)
    (h1 : P.data.isPrefixOf "g.setColour(".data = false)
    (h2 : ("g.setColour(").data.isPrefixOf P.data = false)
    (h3 : P.data.isPrefixOf "juce::ColourGradient gradient(".data = false)
    (h4 : ("juce::ColourGradient gradient(").data.isPrefixOf P.data = false)
    (h5 : P.data.isPrefixOf "if (".data = false)
    (h6 : ("if (").data.isPrefixOf P.data = false) :
    hasPre P (trimEnd (generateFillCode fill b)) = false := by
  rcases fillCode_head fill b with h | ⟨x, hx⟩ | ⟨x, hx⟩ | ⟨x, hx⟩
  · rw [h]
    exact h0
  · rw [hx]; exact hasPre_trimEnd_false _ _ _ h1 h2
  · rw [hx]; exact hasPre_trimEnd_false _ _ _ h3 h4
  · rw [hx]; exact hasPre_trimEnd_false _ _ _ h5 h6

/-- Opacity-scope opener lines are not drawing operations. -/
theorem ord_pre (n : IRNode) (b : String) : ∀ s ∈ opacityPre n b,
    isShadowDrawLine s = false ∧ isFillDrawLine s = false ∧
    isStrokeDrawLine s = false := by
  intro s hs
  unfold opacityPre at hs
  split at hs
  · simp only [List.mem_cons, List.not_mem_nil, or_false] at hs
    rcases hs with rfl | rfl | rfl <;>
      refine ⟨?_, ?_, ?_⟩ <;>
      simp +decide [isShadowDrawLine, isFillDrawLine, isStrokeDrawLine,
        str_append_assoc, hasPre_append_false]
  · simp at hs

/-- The closer line is not a drawing operation. -/
theorem ord_post (n : IRNode) : ∀ s ∈ opacityPost n,
    isShadowDrawLine s = false ∧ isFillDrawLine s = false ∧
    isStrokeDrawLine s = false := by
  intro s hs
  unfold opacityPost at hs
  split at hs
  · simp only [List.mem_singleton] at hs
    subst hs
    refine ⟨?_, ?_, ?_⟩ <;> decide
  · simp at hs

/-- Drop-shadow scope lines are neither fill nor stroke operations. -/
theorem ord_ds (n : IRNode) : ∀ s ∈ generateDropShadows n,
    isFillDrawLine s = false ∧ isStrokeDrawLine s = false := by
  intro s hs
  unfold generateDropShadows at hs
  rw [List.mem_flatMap] at hs
  obtain ⟨e, _, hse⟩ := hs
  cases e with
  | dropShadow color offset radius spread vis =>
      cases vis
      · simp at hse
      · dsimp only at hse
        rw [if_neg (by simp)] at hse
        simp only [List.mem_cons, List.not_mem_nil, or_false] at hse
        rcases hse with rfl | rfl | rfl | rfl <;>
          refine ⟨?_, ?_⟩ <;>
          simp +decide [isFillDrawLine, isStrokeDrawLine,
            str_append_assoc, hasPre_append_false]
  | innerShadow color offset radius spread vis => simp at hse
  | layerBlur radius vis => simp at hse
  | backgroundBlur radius vis => simp at hse

/-- Rect/frame fill code contains no shadow or stroke operations. -/
theorem ord_rectPaint (fills : List IRFill) (cr : IRCornerRadius) (b : String) :
    ∀ s ∈ generateRectPaint fills cr b,
      isShadowDrawLine s = false ∧ isStrokeDrawLine s = false := by
  intro s hs
  unfold generateRectPaint at hs
  rw [List.mem_flatMap] at hs
  obtain ⟨fill, _, hsf⟩ := hs
  by_cases hv : fill.visible = true
  · rw [if_neg (by simp [hv])] at hsf
    by_cases he : generateFillCode fill b = ""
    · rw [if_pos he] at hsf
      simp at hsf
    · rw [if_neg he] at hsf
      simp only [List.cons_append, List.nil_append, List.mem_cons] at hsf
      rcases hsf with rfl | hsf
      · have q0 := hasPre_trimEnd_fillCode fill b "    shadow.drawForRectangle("
          (by decide) (by decide) (by decide) (by decide) (by decide) (by decide)
          (by decide)
        have q1 := hasPre_trimEnd_fillCode fill b "g.drawRect(" (by decide)
          (by decide) (by decide) (by decide) (by decide) (by decide) (by decide)
        have q2 := hasPre_trimEnd_fillCode fill b "g.drawRoundedRectangle("
          (by decide) (by decide) (by decide) (by decide) (by decide) (by decide)
          (by decide)
        have q3 := hasPre_trimEnd_fillCode fill b "g.drawEllipse(" (by decide)
          (by decide) (by decide) (by decide) (by decide) (by decide) (by decide)
        have q4 := hasPre_trimEnd_fillCode fill b "    g.strokePath(" (by decide)
          (by decide) (by decide) (by decide) (by decide) (by decide) (by decide)
        refine ⟨?_, ?_⟩ <;>
          simp [isShadowDrawLine, isStrokeDrawLine, q0, q1, q2, q3, q4]
      · split at hsf
        · split at hsf
          · simp only [List.mem_singleton] at hsf
            subst hsf
            refine ⟨?_, ?_⟩ <;>
              simp +decide [isShadowDrawLine, isStrokeDrawLine,
                str_append_assoc, hasPre_append_false]
          · unfold perCornerRoundedRect at hsf
            dsimp only at hsf
            split at hsf <;>
              simp only [List.mem_cons, List.not_mem_nil, or_false] at hsf <;>
              [skip; skip] <;>
              first
                | (rcases hsf with rfl <;>
                    refine ⟨?_, ?_⟩ <;>
                    simp +decide [isShadowDrawLine, isStrokeDrawLine,
                      str_append_assoc, hasPre_append_false])
                | (rcases hsf with rfl | rfl | rfl | rfl | rfl | rfl | rfl | rfl | rfl <;>
                    refine ⟨?_, ?_⟩ <;>
                    simp +decide [isShadowDrawLine, isStrokeDrawLine,
                      str_append_assoc, hasPre_append_false])
        · simp only [List.mem_singleton] at hsf
          subst hsf
          refine ⟨?_, ?_⟩ <;>
            simp +decide [isShadowDrawLine, isStrokeDrawLine,
              str_append_assoc, hasPre_append_false]
  · rw [if_pos (by simp [hv])] at hsf
    simp at hsf

/-- Ellipse fill code contains no shadow or stroke operations. -/
theorem ord_ellipsePaint (fills : List IRFill) (b : String) :
    ∀ s ∈ generateEllipsePaint fills b,
      isShadowDrawLine s = false ∧ isStrokeDrawLine s = false := by
  intro s hs
  unfold generateEllipsePaint at hs
  rw [List.mem_flatMap] at hs
  obtain ⟨fill, _, hsf⟩ := hs
  by_cases hv : fill.visible = true
  · rw [if_neg (by simp [hv])] at hsf
    by_cases he : generateFillCode fill b = ""
    · rw [if_pos he] at hsf
      simp at hsf
    · rw [if_neg he] at hsf
      simp only [List.mem_cons, List.not_mem_nil, or_false] at hsf
      rcases hsf with rfl | rfl
      · have q0 := hasPre_trimEnd_fillCode fill b "    shadow.drawForRectangle("
          (by decide) (by decide) (by decide) (by decide) (by decide) (by decide)
          (by decide)
        have q1 := hasPre_trimEnd_fillCode fill b "g.drawRect(" (by decide)
          (by decide) (by decide) (by decide) (by decide) (by decide) (by decide)
        have q2 := hasPre_trimEnd_fillCode fill b "g.drawRoundedRectangle("
          (by decide) (by decide) (by decide) (by decide) (by decide) (by decide)
          (by decide)
        have q3 := hasPre_trimEnd_fillCode fill b "g.drawEllipse(" (by decide)
          (by decide) (by decide) (by decide) (by decide) (by decide) (by decide)
        have q4 := hasPre_trimEnd_fillCode fill b "    g.strokePath(" (by decide)
          (by decide) (by decide) (by decide) (by decide) (by decide) (by decide)
        refine ⟨?_, ?_⟩ <;>
          simp [isShadowDrawLine, isStrokeDrawLine, q0, q1, q2, q3, q4]
      · refine ⟨?_, ?_⟩ <;>
          simp +decide [isShadowDrawLine, isStrokeDrawLine,
            str_append_assoc, hasPre_append_false]
  · rw [if_pos (by simp [hv])] at hsf
    simp at hsf

/-- Text drawing emits no shadow, fill or stroke operations. -/
theorem ord_textDraw (n : IRNode) (b : String) :
    ∀ s ∈ generateTextDraw n b,
      isShadowDrawLine s = false ∧ isFillDrawLine s = false ∧
      isStrokeDrawLine s = false := by
  intro s hs
  cases n with
  | text c characters style autoResize =>
      simp only [generateTextDraw] at hs
      rw [List.cons_append, List.cons_append, List.nil_append] at hs
      simp only [List.mem_cons] at hs
      rcases hs with rfl | rfl | hs
      · refine ⟨?_, ?_, ?_⟩ <;>
          simp +decide [isShadowDrawLine, isFillDrawLine, isStrokeDrawLine,
            str_append_assoc, hasPre_append_false]
      · refine ⟨?_, ?_, ?_⟩ <;>
          simp +decide [isShadowDrawLine, isFillDrawLine, isStrokeDrawLine,
            str_append_assoc, hasPre_append_false]
      · split at hs <;>
          simp only [List.mem_singleton] at hs <;>
          subst hs <;>
          refine ⟨?_, ?_, ?_⟩ <;>
          simp +decide [isShadowDrawLine, isFillDrawLine, isStrokeDrawLine,
            str_append_assoc, hasPre_append_false]
  | frame c ftype children cr clips al => simp [generateTextDraw] at hs
  | group c children => simp [generateTextDraw] at hs
  | rect c cr => simp [generateTextDraw] at hs
  | ellipse c => simp [generateTextDraw] at hs
  | vector c vtype paths => simp [generateTextDraw] at hs

/-- Membership in a per-path scope: classification of every line. A line of
a path block is never a shadow operation; fill operations there are exactly
the fillPath lines and stroke operations exactly the strokePath lines. -/
theorem ord_pathBlock (fills : List IRFill) (strokes : List IRStroke)
    (b varName : String) (p : IRPathData) (w : String)
    (hvn : varName = "path" ++ w) :
    ∀ s ∈ pathBlock fills strokes b varName p,
      isShadowDrawLine s = false := by
  intro s hs
  unfold pathBlock at hs
  simp only [List.cons_append, List.nil_append, List.mem_cons,
    List.mem_append, List.mem_singleton] at hs
  rcases hs with rfl | rfl | ((((hs | hs) | hs) | hs) | (rfl | hs))
  · decide
  · subst hvn
    simp +decide [isShadowDrawLine, str_append_assoc, hasPre_append_false]
  · rw [List.mem_map] at hs
    obtain ⟨l, hl, rfl⟩ := hs
    obtain ⟨z, rfl⟩ : ∃ z, l = varName ++ z := by
      unfold svgToJucePath at hl
      exact svgRun_line_shape varName _ 0 0 l hl
    subst hvn
    show hasPre "    shadow.drawForRectangle(" _ = false
    rw [show ("    shadow.drawForRectangle(" : String) =
      "    " ++ "shadow.drawForRectangle(" from by decide]
    rw [show ("    " : String) ++ (("path" ++ w) ++ z) =
      "    " ++ ("path" ++ (w ++ z)) from by rw [str_append_assoc]]
    rw [hasPre_cancel]
    exact hasPre_append_false _ _ _ (by decide) (by decide)
  · split at hs
    · simp only [List.mem_singleton] at hs
      subst hs hvn
      show hasPre "    shadow.drawForRectangle(" _ = false
      rw [show ("    shadow.drawForRectangle(" : String) =
        "    " ++ "shadow.drawForRectangle(" from by decide]
      rw [show ("    " : String) ++ ("path" ++ w) ++ ".setUsingNonZeroWinding(false);" =
        "    " ++ ("path" ++ (w ++ ".setUsingNonZeroWinding(false);")) from by
          rw [str_append_assoc, str_append_assoc]]
      rw [hasPre_cancel]
      exact hasPre_append_false _ _ _ (by decide) (by decide)
    · simp at hs
  · rw [List.mem_flatMap] at hs
    obtain ⟨fill, _, hsf⟩ := hs
    by_cases hv : fill.visible = true
    · rw [if_neg (by simp [hv])] at hsf
      by_cases he : generateFillCode fill b = ""
      · simp only [he, if_pos] at hsf
        simp at hsf
      · rw [if_neg he] at hsf
        simp only [List.mem_cons, List.not_mem_nil, or_false] at hsf
        rcases hsf with rfl | rfl
        · show hasPre "    shadow.drawForRectangle(" _ = false
          rw [show ("    shadow.drawForRectangle(" : String) =
            "    " ++ "shadow.drawForRectangle(" from by decide]
          rw [hasPre_cancel]
          exact hasPre_trimEnd_fillCode fill b "shadow.drawForRectangle("
            (by decide) (by decide) (by decide) (by decide) (by decide)
            (by decide) (by decide)
        · simp +decide [isShadowDrawLine, str_append_assoc, hasPre_append_false]
    · rw [if_pos (by simp [hv])] at hsf
      simp at hsf
  · rw [List.mem_flatMap] at hs
    obtain ⟨stroke, _, hsf⟩ := hs
    by_cases hv : stroke.visible = true
    · rw [if_neg (by simp [hv])] at hsf
      simp only [List.mem_cons, List.not_mem_nil, or_false] at hsf
      rcases hsf with rfl | rfl <;>
        simp +decide [isShadowDrawLine, str_append_assoc, hasPre_append_false]
    · rw [if_pos (by simp [hv])] at hsf
      simp at hsf
  · decide
  · simp at hs

/-- A fill operation inside a path block can only come from a visible fill
whose fill code is nonempty. -/
theorem pathBlock_fill_source (fills : List IRFill) (strokes : List IRStroke)
    (b varName : String) (p : IRPathData) (w : String)
    (hvn : varName = "path" ++ w) :
    ∀ s ∈ pathBlock fills strokes b varName p, isFillDrawLine s = true →
      ∃ f ∈ fills, f.visible = true ∧ generateFillCode f b ≠ "" := by
  intro s hs hfill
  unfold pathBlock at hs
  simp only [List.cons_append, List.nil_append, List.mem_cons,
    List.mem_append, List.mem_singleton] at hs
  rcases hs with rfl | rfl | ((((hs | hs) | hs) | hs) | (rfl | hs))
  · exact absurd hfill (by decide)
  · subst hvn
    simp +decide [isFillDrawLine, str_append_assoc, hasPre_append_false] at hfill
  · rw [List.mem_map] at hs
    obtain ⟨l, hl, rfl⟩ := hs
    obtain ⟨z, rfl⟩ : ∃ z, l = varName ++ z := by
      unfold svgToJucePath at hl
      exact svgRun_line_shape varName _ 0 0 l hl
    subst hvn
    exfalso
    simp only [isFillDrawLine, Bool.or_eq_true] at hfill
    rcases hfill with hfill | hfill
    · rw [show ("    " : String) ++ (("path" ++ w) ++ z) =
        "    " ++ ("path" ++ (w ++ z)) from by rw [str_append_assoc],
        hasPre_append_false _ _ _ (by decide) (by decide)] at hfill
      simp at hfill
    · rw [show ("    g.fillPath(" : String) = "    " ++ "g.fillPath(" from by decide,
        show ("    " : String) ++ (("path" ++ w) ++ z) =
          "    " ++ ("path" ++ (w ++ z)) from by rw [str_append_assoc],
        hasPre_cancel,
        hasPre_append_false _ _ _ (by decide) (by decide)] at hfill
      simp at hfill
  · split at hs
    · simp only [List.mem_singleton] at hs
      subst hs hvn
      exfalso
      simp only [isFillDrawLine, Bool.or_eq_true] at hfill
      rcases hfill with hfill | hfill
      · rw [show ("    " : String) ++ ("path" ++ w) ++ ".setUsingNonZeroWinding(false);" =
          "    " ++ ("path" ++ (w ++ ".setUsingNonZeroWinding(false);")) from by
            rw [str_append_assoc, str_append_assoc],
          hasPre_append_false _ _ _ (by decide) (by decide)] at hfill
        simp at hfill
      · rw [show ("    g.fillPath(" : String) = "    " ++ "g.fillPath(" from by decide,
          show ("    " : String) ++ ("path" ++ w) ++ ".setUsingNonZeroWinding(false);" =
            "    " ++ ("path" ++ (w ++ ".setUsingNonZeroWinding(false);")) from by
              rw [str_append_assoc, str_append_assoc],
          hasPre_cancel,
          hasPre_append_false _ _ _ (by decide) (by decide)] at hfill
        simp at hfill
    · simp at hs
  · rw [List.mem_flatMap] at hs
    obtain ⟨fill, hfm, hsf⟩ := hs
    by_cases hv : fill.visible = true
    · rw [if_neg (by simp [hv])] at hsf
      by_cases he : generateFillCode fill b = ""
      · simp only [he, if_pos] at hsf
        simp at hsf
      · exact ⟨fill, hfm, hv, he⟩
    · rw [if_pos (by simp [hv])] at hsf
      simp at hsf
  · rw [List.mem_flatMap] at hs
    obtain ⟨stroke, _, hsf⟩ := hs
    by_cases hv : stroke.visible = true
    · rw [if_neg (by simp [hv])] at hsf
      simp only [List.mem_cons, List.not_mem_nil, or_false] at hsf
      exfalso
      rcases hsf with rfl | rfl <;>
        simp +decide [isFillDrawLine, str_append_assoc, hasPre_append_false] at hfill
    · rw [if_pos (by simp [hv])] at hsf
      simp at hsf
  · exact absurd hfill (by decide)
  · simp at hs

/-- Inside one per-path scope, every fill operation precedes every stroke
operation: the fills loop runs before the strokes loop. -/
theorem pathBlock_order (fills : List IRFill) (strokes : List IRStroke)
    (b varName : String) (p : IRPathData) (w : String)
    (hvn : varName = "path" ++ w)
    (f0 : IRFill) (hf0 : f0 ∈ fills) (hv0 : f0.visible = true)
    (he0 : generateFillCode f0 b ≠ "") :
    (pathBlock fills strokes b varName p).any isFillDrawLine = true ∧
    (pathBlock fills strokes b varName p).findIdx isFillDrawLine <
      (pathBlock fills strokes b varName p).findIdx isStrokeDrawLine := by
  subst hvn
  have hline : ∀ z : String,
      isFillDrawLine ("    " ++ ("path" ++ z)) = false ∧
      isStrokeDrawLine ("    " ++ ("path" ++ z)) = false := by
    intro z
    have a0 : hasPre "g.fill" ("    " ++ ("path" ++ z)) = false :=
      hasPre_append_false _ _ _ (by decide) (by decide)
    have a1 : hasPre "    g.fillPath(" ("    " ++ ("path" ++ z)) = false := by
      rw [show ("    g.fillPath(" : String) = "    " ++ "g.fillPath(" from by decide,
        hasPre_cancel]
      exact hasPre_append_false _ _ _ (by decide) (by decide)
    have b1 : hasPre "g.drawRect(" ("    " ++ ("path" ++ z)) = false :=
      hasPre_append_false _ _ _ (by decide) (by decide)
    have b2 : hasPre "g.drawRoundedRectangle(" ("    " ++ ("path" ++ z)) = false :=
      hasPre_append_false _ _ _ (by decide) (by decide)
    have b3 : hasPre "g.drawEllipse(" ("    " ++ ("path" ++ z)) = false :=
      hasPre_append_false _ _ _ (by decide) (by decide)
    have b4 : hasPre "    g.strokePath(" ("    " ++ ("path" ++ z)) = false := by
      rw [show ("    g.strokePath(" : String) = "    " ++ "g.strokePath(" from by decide,
        hasPre_cancel]
      exact hasPre_append_false _ _ _ (by decide) (by decide)
    exact ⟨by simp [isFillDrawLine, a0, a1],
      by simp [isStrokeDrawLine, b1, b2, b3, b4]⟩
  have hMapWind : ∀ s ∈ ((svgToJucePath p ("path" ++ w)).map (fun l => "    " ++ l) ++
      (if p.windingRule = "evenodd" then
        ["    " ++ ("path" ++ w) ++ ".setUsingNonZeroWinding(false);"] else [])),
      isFillDrawLine s = false ∧ isStrokeDrawLine s = false := by
    intro s hs
    rw [List.mem_append] at hs
    rcases hs with hs | hs
    · rw [List.mem_map] at hs
      obtain ⟨l, hl, rfl⟩ := hs
      obtain ⟨z, rfl⟩ : ∃ z, l = ("path" ++ w) ++ z := by
        unfold svgToJucePath at hl
        exact svgRun_line_shape _ _ 0 0 l hl
      rw [show ("    " : String) ++ (("path" ++ w) ++ z) =
        "    " ++ ("path" ++ (w ++ z)) from by rw [str_append_assoc]]
      exact hline _
    · split at hs
      · simp only [List.mem_singleton] at hs
        subst hs
        rw [show ("    " : String) ++ ("path" ++ w) ++ ".setUsingNonZeroWinding(false);" =
          "    " ++ ("path" ++ (w ++ ".setUsingNonZeroWinding(false);")) from by
            rw [str_append_assoc, str_append_assoc]]
        exact hline _
      · simp at hs
  have hFillSeg : ∀ s ∈ (fills.flatMap (fun fill =>
      if ¬ fill.visible then []
      else
        if generateFillCode fill b = "" then []
        else ["    " ++ trimEnd (generateFillCode fill b),
              "    g.fillPath(" ++ ("path" ++ w) ++ ");"])),
      isStrokeDrawLine s = false := by
    intro s hs
    rw [List.mem_flatMap] at hs
    obtain ⟨fill, _, hsf⟩ := hs
    by_cases hv : fill.visible = true
    · rw [if_neg (by simp [hv])] at hsf
      by_cases he : generateFillCode fill b = ""
      · simp only [he, if_pos] at hsf
        simp at hsf
      · rw [if_neg he] at hsf
        simp only [List.mem_cons, List.not_mem_nil, or_false] at hsf
        rcases hsf with rfl | rfl
        · have b1 : hasPre "g.drawRect("
              ("    " ++ trimEnd (generateFillCode fill b)) = false :=
            hasPre_append_false _ _ _ (by decide) (by decide)
          have b2 : hasPre "g.drawRoundedRectangle("
              ("    " ++ trimEnd (generateFillCode fill b)) = false :=
            hasPre_append_false _ _ _ (by decide) (by decide)
          have b3 : hasPre "g.drawEllipse("
              ("    " ++ trimEnd (generateFillCode fill b)) = false :=
            hasPre_append_false _ _ _ (by decide) (by decide)
          have b4 : hasPre "    g.strokePath("
              ("    " ++ trimEnd (generateFillCode fill b)) = false := by
            rw [show ("    g.strokePath(" : String) =
              "    " ++ "g.strokePath(" from by decide, hasPre_cancel]
            exact hasPre_trimEnd_fillCode fill b "g.strokePath(" (by decide)
              (by decide) (by decide) (by decide) (by decide) (by decide) (by decide)
          simp [isStrokeDrawLine, b1, b2, b3, b4]
        · simp +decide [isStrokeDrawLine, str_append_assoc, hasPre_append_false]
    · rw [if_pos (by simp [hv])] at hsf
      simp at hsf
  have hFillAny : (fills.flatMap (fun fill =>
      if ¬ fill.visible then []
      else
        if generateFillCode fill b = "" then []
        else ["    " ++ trimEnd (generateFillCode fill b),
              "    g.fillPath(" ++ ("path" ++ w) ++ ");"])).any isFillDrawLine = true := by
    rw [List.any_eq_true]
    refine ⟨"    g.fillPath(" ++ ("path" ++ w) ++ ");", ?_, ?_⟩
    · rw [List.mem_flatMap]
      refine ⟨f0, hf0, ?_⟩
      rw [if_neg (by simp [hv0]), if_neg he0]
      simp
    · simp [isFillDrawLine, str_append_assoc, hasPre_lit]
  have hHead2 : isFillDrawLine ("    juce::Path " ++ ("path" ++ w) ++ ";") = false ∧
      isStrokeDrawLine ("    juce::Path " ++ ("path" ++ w) ++ ";") = false := by
    refine ⟨?_, ?_⟩ <;>
      simp +decide [isFillDrawLine, isStrokeDrawLine, str_append_assoc,
        hasPre_append_false]
  unfold pathBlock
  simp only [List.cons_append, List.nil_append]
  rw [List.append_assoc _ _ (["\x7d"] : List String), List.append_assoc _ _
    (_ ++ ["\x7d"])]
  constructor
  · simp only [List.any_cons, List.any_append, hFillAny, Bool.or_true,
      Bool.true_or]
  · have hfz : isFillDrawLine "\x7b" = false := by decide
    have hsz : isStrokeDrawLine "\x7b" = false := by decide
    simp only [List.findIdx_cons, hfz, hsz, hHead2.1, hHead2.2, cond_false]
    rw [findIdx_append_none _ (fun s hs => (hMapWind s hs).1),
      findIdx_append_none _ (fun s hs => (hMapWind s hs).2),
      findIdx_append_any _ hFillAny,
      findIdx_append_none _ hFillSeg]
    have hlt := findIdx_lt_of_any hFillAny
    omega

/-- The shape-drawing segment of a node never emits a shadow operation. -/
theorem ord_np_noshadow (n : IRNode) (b : String) :
    ∀ s ∈ generateNodePaint n b, isShadowDrawLine s = false := by
  cases n with
  | rect c cr => exact fun s hs => (ord_rectPaint c.fills cr b s hs).1
  | frame c ftype children cr clips al =>
      exact fun s hs => (ord_rectPaint c.fills cr b s hs).1
  | ellipse c => exact fun s hs => (ord_ellipsePaint c.fills b s hs).1
  | text c characters style autoResize =>
      exact fun s hs => (ord_textDraw (IRNode.text c characters style autoResize) b s hs).1
  | group c children => intro s hs; simp [generateNodePaint] at hs
  | vector c vtype paths =>
      intro s hs
      rw [show generateNodePaint (IRNode.vector c vtype paths) b =
        generatePathDraw (IRNode.vector c vtype paths) b from rfl] at hs
      unfold generatePathDraw at hs
      rw [List.mem_flatMap] at hs
      obtain ⟨⟨i, p⟩, _, hin⟩ := hs
      dsimp only at hin
      by_cases hlen : (IRNode.vector c vtype paths).pathsL.length = 1
      · rw [if_pos hlen] at hin
        exact ord_pathBlock _ _ _ _ _ "" (str_append_empty "path").symm s hin
      · rw [if_neg hlen] at hin
        exact ord_pathBlock _ _ _ _ _ (toString i) rfl s hin

/-- Within a node's own shape segment, the first fill operation precedes the
first stroke operation (path stroking happens after path filling). -/
theorem ord_np_order (n : IRNode) (b : String)
    (hany : (generateNodePaint n b).any isFillDrawLine = true) :
    (generateNodePaint n b).findIdx isFillDrawLine <
      (generateNodePaint n b).findIdx isStrokeDrawLine := by
  cases n with
  | rect c cr =>
      rw [show generateNodePaint (IRNode.rect c cr) b =
        generateRectPaint c.fills cr b from rfl] at hany ⊢
      rw [findIdx_eq_length_of_none (fun s hs => (ord_rectPaint c.fills cr b s hs).2)]
      exact findIdx_lt_of_any hany
  | frame c ftype children cr clips al =>
      rw [show generateNodePaint (IRNode.frame c ftype children cr clips al) b =
        generateRectPaint c.fills cr b from rfl] at hany ⊢
      rw [findIdx_eq_length_of_none (fun s hs => (ord_rectPaint c.fills cr b s hs).2)]
      exact findIdx_lt_of_any hany
  | ellipse c =>
      rw [show generateNodePaint (IRNode.ellipse c) b =
        generateEllipsePaint c.fills b from rfl] at hany ⊢
      rw [findIdx_eq_length_of_none (fun s hs => (ord_ellipsePaint c.fills b s hs).2)]
      exact findIdx_lt_of_any hany
  | text c characters style autoResize =>
      exfalso
      rw [List.any_eq_true] at hany
      obtain ⟨s, hs, hfill⟩ := hany
      have := (ord_textDraw (IRNode.text c characters style autoResize) b s hs).2.1
      rw [hfill] at this
      simp at this
  | group c children => simp [generateNodePaint] at hany
  | vector c vtype paths =>
      rw [show generateNodePaint (IRNode.vector c vtype paths) b =
        generatePathDraw (IRNode.vector c vtype paths) b from rfl] at hany ⊢
      unfold generatePathDraw at hany ⊢
      obtain ⟨f0, hf0, hv0, he0⟩ :
          ∃ f ∈ (IRNode.vector c vtype paths).common.fills,
            f.visible = true ∧ generateFillCode f b ≠ "" := by
        rw [List.any_eq_true] at hany
        obtain ⟨s, hs, hfill⟩ := hany
        rw [List.mem_flatMap] at hs
        obtain ⟨⟨i, p⟩, _, hin⟩ := hs
        dsimp only at hin
        by_cases hlen : (IRNode.vector c vtype paths).pathsL.length = 1
        · rw [if_pos hlen] at hin
          exact pathBlock_fill_source _ _ _ _ _ ""
            (str_append_empty "path").symm s hin hfill
        · rw [if_neg hlen] at hin
          exact pathBlock_fill_source _ _ _ _ _ (toString i) rfl s hin hfill
      rcases hp : (IRNode.vector c vtype paths).pathsL with _ | ⟨p0, ps⟩
      · rw [hp] at hany
        simp at hany
      · rw [hp] at hany
        rw [show (p0 :: ps).enum = (0, p0) :: List.enumFrom 1 ps from rfl,
          List.flatMap_cons] at hany ⊢
        dsimp only at hany ⊢
        obtain ⟨hany0, horder0⟩ := pathBlock_order
          (IRNode.vector c vtype paths).common.fills
          (IRNode.vector c vtype paths).common.strokes b
          (if (p0 :: ps).length = 1 then "path" else "path" ++ toString 0) p0
          (if (p0 :: ps).length = 1 then "" else toString 0)
          (by split <;> [exact (str_append_empty "path").symm; rfl])
          f0 hf0 hv0 he0
        rw [findIdx_append_any _ hany0]
        by_cases hstr : (pathBlock (IRNode.vector c vtype paths).common.fills
            (IRNode.vector c vtype paths).common.strokes b
            (if (p0 :: ps).length = 1 then "path" else "path" ++ toString 0)
            p0).any isStrokeDrawLine = true
        · rw [findIdx_append_any _ hstr]
          exact horder0
        · rw [findIdx_append_none _ (fun s hs => by
            rcases Bool.eq_false_or_eq_true (isStrokeDrawLine s) with h | h
            · exact absurd (List.any_eq_true.mpr ⟨s, hs, h⟩) hstr
            · exact h)]
          have := findIdx_lt_of_any hany0
          omega

/-- Combined per-node ordering: shadows before fills, fills before strokes,
for the node's own operations in its generated paint block. -/
theorem ord_childPaint_main (n : IRNode) (CH : List String)
    (hEq : generateChildPaint n =
      if ¬ n.visible then []
      else
        opacityPre n (nodeBoundsExpr n)
        ++ generateDropShadows n
        ++ generateNodePaint n (nodeBoundsExpr n)
        ++ generateInnerShadows n (nodeBoundsExpr n)
        ++ generateBlurEffects n
        ++ generateStrokes n (nodeBoundsExpr n)
        ++ CH
        ++ opacityPost n)
    (hvis : n.visible = true) :
    ((generateDropShadows n).any isShadowDrawLine = true →
      (generateChildPaint n).findIdx isShadowDrawLine <
        (generateChildPaint n).findIdx isFillDrawLine) ∧
    ((generateNodePaint n (nodeBoundsExpr n)).any isFillDrawLine = true →
      (generateChildPaint n).findIdx isFillDrawLine <
        (generateChildPaint n).findIdx isStrokeDrawLine) := by
  rw [hEq, if_neg (by simp [hvis])]
  simp only [List.append_assoc]
  constructor
  · intro hsh
    rw [findIdx_append_none _ (fun s hs => (ord_pre n (nodeBoundsExpr n) s hs).1),
      findIdx_append_any _ hsh,
      findIdx_append_none _ (fun s hs => (ord_pre n (nodeBoundsExpr n) s hs).2.1),
      findIdx_append_none _ (fun s hs => (ord_ds n s hs).1)]
    have := findIdx_lt_of_any hsh
    omega
  · intro hfill
    rw [findIdx_append_none _ (fun s hs => (ord_pre n (nodeBoundsExpr n) s hs).2.1),
      findIdx_append_none _ (fun s hs => (ord_ds n s hs).1),
      findIdx_append_any _ hfill,
      findIdx_append_none _ (fun s hs => (ord_pre n (nodeBoundsExpr n) s hs).2.2),
      findIdx_append_none _ (fun s hs => (ord_ds n s hs).2)]
    by_cases hstr : (generateNodePaint n (nodeBoundsExpr n)).any isStrokeDrawLine = true
    · rw [findIdx_append_any _ hstr]
      have := ord_np_order n (nodeBoundsExpr n) hfill
      omega
    · rw [findIdx_append_none _ (fun s hs => by
        rcases Bool.eq_false_or_eq_true (isStrokeDrawLine s) with h | h
        · exact absurd (List.any_eq_true.mpr ⟨s, hs, h⟩) hstr
        · exact h)]
      have h1 := findIdx_lt_of_any hfill
      omega

/-- If the stroke segment draws a stroke, the whole paint block of a visible
node contains a stroke operation. -/
theorem any_childPaint_stroke (n : IRNode) (CH : List String)
    (hEq : generateChildPaint n =
      if ¬ n.visible then []
      else
        opacityPre n (nodeBoundsExpr n)
        ++ generateDropShadows n
        ++ generateNodePaint n (nodeBoundsExpr n)
        ++ generateInnerShadows n (nodeBoundsExpr n)
        ++ generateBlurEffects n
        ++ generateStrokes n (nodeBoundsExpr n)
        ++ CH
        ++ opacityPost n)
    (hvis : n.visible = true)
    (hstroke : (generateStrokes n (nodeBoundsExpr n)).any isStrokeDrawLine = true) :
    (generateChildPaint n).any isStrokeDrawLine = true := by
  rw [hEq, if_neg (by simp [hvis])]
  simp [List.any_append, hstroke]

/- ══ Claim theorems ═════════════════════════════════════════════════ -/

/-- C3: a gradient paint (linear or radial) whose stop list is absent is
dropped silently by convertFill — it produces no IR fill and no error. -/
theorem claim_C3_gradient_without_stops_dropped (paint : FigmaPaint)
    (hty : paint.type = "GRADIENT_LINEAR" ∨ paint.type = "GRADIENT_RADIAL")
    (hstops : paint.gradientStops = none) :
    convertFill paint = none := by
  obtain ⟨ty, vis, op, col, ghp, gs, sm, ir⟩ := paint
  simp only at hty hstops
  cases hstops
  rcases hty with h | h <;> cases h <;>
    rcases ghp with _ | (_ | ⟨a, (_ | ⟨b, (_ | ⟨e, l⟩)⟩)⟩) <;> rfl

/-- Witness for C3 at the concrete no-stop linear-gradient paint. -/
theorem claim_C3_gradient_without_stops_dropped_witness :
    (c3NoStopsPaint.type = "GRADIENT_LINEAR" ∨
      c3NoStopsPaint.type = "GRADIENT_RADIAL") ∧
    c3NoStopsPaint.gradientStops = none ∧
    convertFill c3NoStopsPaint = none :=
  ⟨Or.inl rfl, rfl,
    claim_C3_gradient_without_stops_dropped c3NoStopsPaint (Or.inl rfl) rfl⟩

/-- C4: for every IR tree, the generated paint body is balanced — the number
of opacity-scope opening lines (g.saveState();) equals the number of closing
lines (g.restoreState();), and every per-path drawing scope opened with a
brace line is closed with a matching brace line. -/
theorem claim_C4_paint_body_balanced (root : IRNode) :
    (generatePaintBodyLines root).count "g.saveState();" =
      (generatePaintBodyLines root).count "g.restoreState();" ∧
    (generatePaintBodyLines root).count "\x7b" =
      (generatePaintBodyLines root).count "\x7d" := by
  have h : PaintBalanced (generatePaintBodyLines root) := by
    unfold generatePaintBodyLines
    exact paintBalanced_append (bal_nodePaint root "getLocalBounds().toFloat()")
      (bal_childPaintList root.childrenL)
  exact h

/-- C8: a horizontal right constraint pins the trailing edge at the fixed
margin parentWidth − relativeX − width (a vertical bottom constraint pins it
at parentHeight − relativeY − height); concretely, parent width 400,
relativeX 300 and width 80 give a right margin of 20. -/
theorem claim_C8_right_constraint_margin :
    (∀ (relX width parentW : ℚ) (b : String),
      generateHorizontalConstraint .right relX width parentW b =
        b ++ ".getRight() - " ++ toInt (specTrailingMargin parentW relX width) ++
          " - " ++ toInt width) ∧
    (∀ (relY height parentH : ℚ) (b : String),
      generateVerticalConstraint .bottom relY height parentH b =
        b ++ ".getBottom() - " ++ toInt (specTrailingMargin parentH relY height) ++
          " - " ++ toInt height) ∧
    specTrailingMargin 400 300 80 = 20 ∧
    generateHorizontalConstraint .right 300 80 400 "bounds" =
      "bounds.getRight() - 20 - 80" := by
  refine ⟨fun relX width parentW b => rfl, fun relY height parentH b => rfl,
    by norm_num [specTrailingMargin], by decide⟩

/-- C10: convertStrokes keeps exactly the visible solid paints that carry a
color; every kept IR stroke takes the node-level stroke weight (default 1),
and the kept strokes are always marked visible. -/
theorem claim_C10_stroke_conversion (strokes : Option (List FigmaPaint))
    (strokeWeight : Option ℚ) (strokeAlign strokeCap strokeJoin : Option String) :
    convertStrokes strokes strokeWeight strokeAlign strokeCap strokeJoin =
      specConvertStrokes strokes strokeWeight strokeAlign strokeCap strokeJoin := by
  cases strokes with
  | none => rfl
  | some ss =>
      simp only [convertStrokes, specConvertStrokes]
      congr 1
      funext s
      by_cases hv : s.visible = some false
      · cases hc : s.color <;> simp [hv, hc]
      · by_cases ht : s.type = "SOLID"
        · cases hc : s.color <;> simp [hv, ht, hc]
        · cases hc : s.color <;> simp [hv, ht, hc]

/-- C6: when a command letter is followed by more operands than its fixed
arity, the parser splits the run into repeated commands of that type built
from successive arity-sized chunks; the arity table gives 2 for move and
line, 1 for horizontal and vertical, 6 for cubic, 4 for quadratic; and
parsing L 10 20 30 40 yields exactly two line commands with operands
(10,20) then (30,40). -/
theorem claim_C6_repeated_argument_splitting (ty : Char) (args : List ℚ)
    (h0 : getExpectedArgCount ty ≠ 0)
    (h1 : getExpectedArgCount ty < args.length) :
    splitRun ty args =
      (chunkArgs (getExpectedArgCount ty) args).map (fun a => ⟨ty, a⟩) ∧
    getExpectedArgCount 'M' = 2 ∧ getExpectedArgCount 'L' = 2 ∧
    getExpectedArgCount 'H' = 1 ∧ getExpectedArgCount 'V' = 1 ∧
    getExpectedArgCount 'C' = 6 ∧ getExpectedArgCount 'Q' = 4 ∧
    parseSvgPath "L 10 20 30 40" = [⟨'L', [10, 20]⟩, ⟨'L', [30, 40]⟩] := by
  have hc : ¬ (getExpectedArgCount ty = 0 ∨
      args.length ≤ getExpectedArgCount ty) := by
    push_neg
    exact ⟨h0, h1⟩
  refine ⟨?_, by decide, by decide, by decide, by decide, by decide, by decide,
    by decide⟩
  simp only [splitRun, if_neg hc]

/-- Witness for C6 at the letter L with four operands. -/
theorem claim_C6_repeated_argument_splitting_witness :
    splitRun 'L' [10, 20, 30, 40] =
      (chunkArgs (getExpectedArgCount 'L') [10, 20, 30, 40]).map
        (fun a => ⟨'L', a⟩) ∧
    getExpectedArgCount 'M' = 2 ∧ getExpectedArgCount 'L' = 2 ∧
    getExpectedArgCount 'H' = 1 ∧ getExpectedArgCount 'V' = 1 ∧
    getExpectedArgCount 'C' = 6 ∧ getExpectedArgCount 'Q' = 4 ∧
    parseSvgPath "L 10 20 30 40" = [⟨'L', [10, 20]⟩, ⟨'L', [30, 40]⟩] :=
  claim_C6_repeated_argument_splitting 'L' [10, 20, 30, 40] (by decide) (by decide)

/-- C7: the translator's cursor discipline matches the spec rule step by
step (absolute commands jump to their endpoint, relative variants add their
operands, horizontal and vertical variants touch one axis, close does not
move the cursor), and M 0 0 L 10 0 L 10 10 Z parses to exactly the four
expected commands whose translation emits lineTo(10,10) third and
closeSubPath fourth, ending at cursor (10,10) with zero drift. -/
theorem claim_C7_cursor_discipline :
    (∀ (v : String) (cmd : SvgCommand) (x y : ℚ),
      (svgStep v cmd x y).2 = specCursorStep cmd x y) ∧
    parseSvgPath "M 0 0 L 10 0 L 10 10 Z" =
      [⟨'M', [0, 0]⟩, ⟨'L', [10, 0]⟩, ⟨'L', [10, 10]⟩, ⟨'Z', []⟩] ∧
    svgToJucePath ⟨"M 0 0 L 10 0 L 10 10 Z", "NONZERO"⟩ "path" =
      ["path.startNewSubPath(0.0f, 0.0f);", "path.lineTo(10.0f, 0.0f);",
       "path.lineTo(10.0f, 10.0f);", "path.closeSubPath();"] ∧
    (svgRun "path" (parseSvgPath "M 0 0 L 10 0 L 10 10 Z") 0 0).2 = (10, 10) := by
  refine ⟨?_, by decide, by decide, by decide⟩
  intro v cmd x y
  obtain ⟨ty, args⟩ := cmd
  simp only [svgStep, specCursorStep]
  split <;> first
    | rfl
    | (split <;> simp_all)

/-- C9: an auto-layout container with all four paddings zero performs layout
directly against the container's bounds — the only layout call is the plain
one with no bounds-reduction — while a positive padding makes the layout
call reduce the bounds by the four independent paddings first. -/
theorem claim_C9_padding_elision (frame : IRNode) (al : IRAutoLayout) (b : String)
    (hal : frame.autoLayoutOpt = some al) :
    (al.paddingTop = 0 ∧ al.paddingRight = 0 ∧ al.paddingBottom = 0 ∧
        al.paddingLeft = 0 →
      (generateFlexBoxLayout frame b).getLast? =
        some ("fb.performLayout(" ++ b ++ ");") ∧
      ∀ s ∈ generateFlexBoxLayout frame b, isPerformLayoutLine s = true →
        s = "fb.performLayout(" ++ b ++ ");") ∧
    (al.paddingTop > 0 ∨ al.paddingRight > 0 ∨ al.paddingBottom > 0 ∨
        al.paddingLeft > 0 →
      (generateFlexBoxLayout frame b).getLast? =
        some ("fb.performLayout(" ++ b ++ ".reduced(" ++ toInt al.paddingLeft ++
          ", " ++ toInt al.paddingTop ++ ", " ++ toInt al.paddingRight ++ ", " ++
          toInt al.paddingBottom ++ "));")) := by
  have hexp : generateFlexBoxLayout frame b =
      ["juce::FlexBox fb;",
       "fb.flexDirection = " ++ mapFlexDirection al.mode ++ ";",
       "fb.justifyContent = " ++ mapJustifyContent al.primaryAxisAlign ++ ";",
       "fb.alignItems = " ++ mapAlignItems al.counterAxisAlign ++ ";"]
      ++ (if al.wrap then ["fb.flexWrap = juce::FlexBox::Wrap::wrap;"] else [])
      ++ ((frame.childrenL.filter (·.visible)).enum.map (fun (i, child) =>
            flexItemLine al i child))
      ++ [if al.paddingTop > 0 ∨ al.paddingRight > 0 ∨ al.paddingBottom > 0 ∨
            al.paddingLeft > 0 then
            "fb.performLayout(" ++ b ++ ".reduced(" ++
              toInt al.paddingLeft ++ ", " ++ toInt al.paddingTop ++ ", " ++
              toInt al.paddingRight ++ ", " ++ toInt al.paddingBottom ++ "));"
          else "fb.performLayout(" ++ b ++ ");"] := by
    rw [generateFlexBoxLayout, hal]
  have hfd : ∀ x, hasPre "fb.performLayout(" ("fb.flexDirection = " ++ x) = false :=
    fun x => hasPre_append_false _ _ x (by decide) (by decide)
  have hjc : ∀ x, hasPre "fb.performLayout(" ("fb.justifyContent = " ++ x) = false :=
    fun x => hasPre_append_false _ _ x (by decide) (by decide)
  have hai : ∀ x, hasPre "fb.performLayout(" ("fb.alignItems = " ++ x) = false :=
    fun x => hasPre_append_false _ _ x (by decide) (by decide)
  have hit : ∀ x, hasPre "fb.performLayout(" ("fb.items.add(" ++ x) = false :=
    fun x => hasPre_append_false _ _ x (by decide) (by decide)
  constructor
  · rintro ⟨h1, h2, h3, h4⟩
    have hcond : ¬ (al.paddingTop > 0 ∨ al.paddingRight > 0 ∨
        al.paddingBottom > 0 ∨ al.paddingLeft > 0) := by
      rw [h1, h2, h3, h4]
      norm_num
    rw [hexp, if_neg hcond]
    refine ⟨List.getLast?_concat _, ?_⟩
    intro s hs hp
    rw [List.mem_append] at hs
    rcases hs with hs | hs
    swap
    · simp only [List.mem_singleton] at hs
      exact hs
    rw [List.mem_append] at hs
    rcases hs with hs | hs
    swap
    · obtain ⟨⟨i, child⟩, hmem, rfl⟩ := List.mem_map.mp hs
      simp only [flexItemLine, isPerformLayoutLine, str_append_assoc, hit] at hp
      exact absurd hp Bool.false_ne_true
    rw [List.mem_append] at hs
    rcases hs with hs | hs
    swap
    · by_cases hw : al.wrap
      · rw [if_pos hw, List.mem_singleton] at hs
        subst hs
        exact absurd hp (by decide)
      · rw [if_neg hw] at hs
        simp at hs
    · simp only [List.mem_cons, List.not_mem_nil, or_false] at hs
      rcases hs with rfl | rfl | rfl | rfl
      · exact absurd hp (by decide)
      · simp only [isPerformLayoutLine, str_append_assoc, hfd] at hp
        exact absurd hp Bool.false_ne_true
      · simp only [isPerformLayoutLine, str_append_assoc, hjc] at hp
        exact absurd hp Bool.false_ne_true
      · simp only [isPerformLayoutLine, str_append_assoc, hai] at hp
        exact absurd hp Bool.false_ne_true
  · intro hpos
    rw [hexp, if_pos hpos]
    exact List.getLast?_concat _

/-- Witness for C9 at a concrete zero-padding frame and its padded variant. -/
theorem claim_C9_padding_elision_witness :
    (generateFlexBoxLayout c9FrameZero "bounds").getLast? =
      some ("fb.performLayout(" ++ "bounds" ++ ");") ∧
    (generateFlexBoxLayout c9FramePadded "bounds").getLast? =
      some ("fb.performLayout(" ++ "bounds" ++ ".reduced(" ++
        toInt c9LayoutPadded.paddingLeft ++ ", " ++
        toInt c9LayoutPadded.paddingTop ++ ", " ++
        toInt c9LayoutPadded.paddingRight ++ ", " ++
        toInt c9LayoutPadded.paddingBottom ++ "));") :=
  ⟨((claim_C9_padding_elision c9FrameZero c9LayoutZero "bounds" rfl).1
      ⟨rfl, rfl, rfl, rfl⟩).1,
   (claim_C9_padding_elision c9FramePadded c9LayoutPadded "bounds" rfl).2
      (Or.inl (by decide))⟩

/-- C1 is refuted as stated: extractTextStyle consults only the first entry
of the style-level fill list, so a solid fill preceded by a non-solid fill
does not determine the text color. A gradient-then-solid-red fill list gets
opaque black, not the red that the first-solid-fill rule demands. -/
theorem claim_C1_counterexample :
    c1Style.fills = some [c1GradientPaint, c1SolidRed] ∧
    c1SolidRed.type = "SOLID" ∧
    c1SolidRed.color = some ⟨1, 0, 0, 1⟩ ∧
    specFirstSolidFillColor [c1GradientPaint, c1SolidRed] = ⟨1, 0, 0, 1⟩ ∧
    (extractTextStyle c1Style).color = ⟨0, 0, 0, 1⟩ ∧
    (extractTextStyle c1Style).color ≠
      specFirstSolidFillColor [c1GradientPaint, c1SolidRed] :=
  ⟨rfl, rfl, rfl, by decide, by decide, by decide⟩

/-- C1 (amended): the text color is determined by the head of the
style-level fill list alone — the head's color when that head is solid and
carries a color, opaque black in every other case, never a later fill. -/
theorem claim_C1_amended_head_fill_color (style : FigmaTypeStyle) :
    (extractTextStyle style).color = specHeadFillColor style.fills := by
  rcases hf : style.fills with _ | (_ | ⟨f, rest⟩) <;>
    simp [extractTextStyle, specHeadFillColor, hf]

/-- C2 is refuted as stated: the emitted proportional factors are rounded to
four decimal digits, so the round-trip is not exact. A child at relativeX 1
inside a 3-wide parent emits the factor 0.3333f, and evaluating the emitted
formula at runtime width 3 returns x = 0.9999, not 1. -/
theorem claim_C2_counterexample :
    generateAbsoluteLayout [c2Child] 3 3 "bounds" =
      ["// Panel",
       "auto panelBounds = bounds.getProportion(juce::Rectangle<float>(0.3333f, 0.0f, 1.0f, 1.0f));"] ∧
    roundTo ((proportionalFactors 3 3 1 0 3 3).1) 4 = 3333 / 10000 ∧
    evalGetProportion ⟨0, 0, 3, 3⟩ (3333 / 10000) 0 1 1 =
      ⟨9999 / 10000, 0, 3, 3⟩ ∧
    (9999 / 10000 : ℚ) ≠ c2Child.common.relativeX :=
  ⟨by decide, by decide, by decide, by decide⟩

/-- C2 (amended): the emitted factors are the guarded quotients relX/W,
relY/H, w/W, h/H (all 0 on a zero-sized parent), the generator prints
exactly these factors for a visible unconstrained child, and evaluating the
emitted formula at runtime size (W,H) reproduces the design-time child
bounds exactly whenever each factor is representable in four decimal
digits (the generator rounds every factor to four digits before printing). -/
theorem claim_C2_amended_proportional_roundtrip (pW pH relX relY w h : ℚ)
    (hW : 0 < pW) (hH : 0 < pH)
    (hx : roundTo (relX / pW) 4 = relX / pW)
    (hy : roundTo (relY / pH) 4 = relY / pH)
    (hw : roundTo (w / pW) 4 = w / pW)
    (hh : roundTo (h / pH) 4 = h / pH) :
    proportionalFactors pW pH relX relY w h =
      (relX / pW, relY / pH, w / pW, h / pH) ∧
    (∀ rX rY w2 h2 : ℚ, proportionalFactors 0 0 rX rY w2 h2 = (0, 0, 0, 0)) ∧
    (∀ (child : IRNode) (b : String),
      child.visible = true →
      child.common.constraints = none →
      detectComponentHint child.common.name = none →
      generateAbsoluteLayout [child] pW pH b =
        ["// " ++ child.common.name,
         "auto " ++ toVariableName child.common.name ++ "Bounds = " ++ b ++
           ".getProportion(juce::Rectangle<float>(" ++
           toFloat (if pW > 0 then child.common.relativeX / pW else 0) ++ ", " ++
           toFloat (if pH > 0 then child.common.relativeY / pH else 0) ++ ", " ++
           toFloat (if pW > 0 then child.common.bounds.width / pW else 0) ++ ", " ++
           toFloat (if pH > 0 then child.common.bounds.height / pH else 0) ++
           "));"]) ∧
    evalGetProportion ⟨0, 0, pW, pH⟩
      (roundTo (relX / pW) 4) (roundTo (relY / pH) 4)
      (roundTo (w / pW) 4) (roundTo (h / pH) 4) = ⟨relX, relY, w, h⟩ := by
  have hW0 : pW ≠ 0 := ne_of_gt hW
  have hH0 : pH ≠ 0 := ne_of_gt hH
  refine ⟨?_, ?_, ?_, ?_⟩
  · simp [proportionalFactors, hW, hH]
  · intro rX rY w2 h2
    norm_num [proportionalFactors]
  · intro child b hv hc hhint
    simp [generateAbsoluteLayout, hv, hc, hhint]
  · rw [hx, hy, hw, hh]
    simp [evalGetProportion, IRBounds.mk.injEq, div_mul_cancel₀ _ hW0,
      div_mul_cancel₀ _ hH0]

/-- Witness for C2 (amended) at parent 400 by 300 and child (100,75,200,150),
whose factors 0.25, 0.25, 0.5, 0.5 are exactly representable. -/
theorem claim_C2_amended_proportional_roundtrip_witness :
    proportionalFactors 400 300 100 75 200 150 =
      (100 / 400, 75 / 300, 200 / 400, 150 / 300) ∧
    (∀ rX rY w2 h2 : ℚ, proportionalFactors 0 0 rX rY w2 h2 = (0, 0, 0, 0)) ∧
    (∀ (child : IRNode) (b : String),
      child.visible = true →
      child.common.constraints = none →
      detectComponentHint child.common.name = none →
      generateAbsoluteLayout [child] 400 300 b =
        ["// " ++ child.common.name,
         "auto " ++ toVariableName child.common.name ++ "Bounds = " ++ b ++
           ".getProportion(juce::Rectangle<float>(" ++
           toFloat (if (400 : ℚ) > 0 then child.common.relativeX / 400 else 0) ++ ", " ++
           toFloat (if (300 : ℚ) > 0 then child.common.relativeY / 300 else 0) ++ ", " ++
           toFloat (if (400 : ℚ) > 0 then child.common.bounds.width / 400 else 0) ++ ", " ++
           toFloat (if (300 : ℚ) > 0 then child.common.bounds.height / 300 else 0) ++
           "));"]) ∧
    evalGetProportion ⟨0, 0, 400, 300⟩
      (roundTo (100 / 400) 4) (roundTo (75 / 300) 4)
      (roundTo (200 / 400) 4) (roundTo (150 / 300) 4) = ⟨100, 75, 200, 150⟩ :=
  claim_C2_amended_proportional_roundtrip 400 300 100 75 200 150
    (by norm_num) (by norm_num) (by decide) (by decide) (by decide) (by decide)

/-- C5: in the paint block generated for any visible node, operation order
is fixed, with each ordering under its own condition — for a node whose
drop-shadow segment draws a shadow and whose shape segment draws a fill,
the first shadow operation precedes the first fill operation (no stroke
required); and for a node whose shape segment draws a fill and whose stroke
segment draws a stroke, the block really contains a stroke operation and
the first fill operation precedes it (no shadow required). -/
theorem claim_C5_operation_order (n : IRNode) (hvis : n.visible = true) :
    ((generateDropShadows n).any isShadowDrawLine = true →
     (generateNodePaint n (nodeBoundsExpr n)).any isFillDrawLine = true →
      (generateChildPaint n).findIdx isShadowDrawLine <
        (generateChildPaint n).findIdx isFillDrawLine) ∧
    ((generateNodePaint n (nodeBoundsExpr n)).any isFillDrawLine = true →
     (generateStrokes n (nodeBoundsExpr n)).any isStrokeDrawLine = true →
      (generateChildPaint n).findIdx isFillDrawLine <
        (generateChildPaint n).findIdx isStrokeDrawLine ∧
      (generateChildPaint n).findIdx isStrokeDrawLine <
        (generateChildPaint n).length) := by
  cases n with
  | frame c ftype children cr clips al =>
      have h := ord_childPaint_main (.frame c ftype children cr clips al)
        (generateChildPaintList children) (by rw [generateChildPaint]) hvis
      exact ⟨fun hsh _ => h.1 hsh, fun hfill hstroke =>
        ⟨h.2 hfill, findIdx_lt_of_any (any_childPaint_stroke _
          (generateChildPaintList children) (by rw [generateChildPaint]) hvis hstroke)⟩⟩
  | group c children =>
      have h := ord_childPaint_main (.group c children)
        (generateChildPaintList children) (by rw [generateChildPaint]) hvis
      exact ⟨fun hsh _ => h.1 hsh, fun hfill hstroke =>
        ⟨h.2 hfill, findIdx_lt_of_any (any_childPaint_stroke _
          (generateChildPaintList children) (by rw [generateChildPaint]) hvis hstroke)⟩⟩
  | rect c cr =>
      have h := ord_childPaint_main (.rect c cr) []
        (by rw [generateChildPaint] <;> intros <;> simp_all) hvis
      exact ⟨fun hsh _ => h.1 hsh, fun hfill hstroke =>
        ⟨h.2 hfill, findIdx_lt_of_any (any_childPaint_stroke _ []
          (by rw [generateChildPaint] <;> intros <;> simp_all) hvis hstroke)⟩⟩
  | ellipse c =>
      have h := ord_childPaint_main (.ellipse c) []
        (by rw [generateChildPaint] <;> intros <;> simp_all) hvis
      exact ⟨fun hsh _ => h.1 hsh, fun hfill hstroke =>
        ⟨h.2 hfill, findIdx_lt_of_any (any_childPaint_stroke _ []
          (by rw [generateChildPaint] <;> intros <;> simp_all) hvis hstroke)⟩⟩
  | text c characters style autoResize =>
      have h := ord_childPaint_main (.text c characters style autoResize) []
        (by rw [generateChildPaint] <;> intros <;> simp_all) hvis
      exact ⟨fun hsh _ => h.1 hsh, fun hfill hstroke =>
        ⟨h.2 hfill, findIdx_lt_of_any (any_childPaint_stroke _ []
          (by rw [generateChildPaint] <;> intros <;> simp_all) hvis hstroke)⟩⟩
  | vector c vtype paths =>
      have h := ord_childPaint_main (.vector c vtype paths) []
        (by rw [generateChildPaint] <;> intros <;> simp_all) hvis
      exact ⟨fun hsh _ => h.1 hsh, fun hfill hstroke =>
        ⟨h.2 hfill, findIdx_lt_of_any (any_childPaint_stroke _ []
          (by rw [generateChildPaint] <;> intros <;> simp_all) hvis hstroke)⟩⟩

/-- Witness for C5 at a concrete rectangle with a visible drop shadow, a
visible solid fill and a visible stroke, discharging both orderings. -/
theorem claim_C5_operation_order_witness :
    (generateChildPaint c5Node).findIdx isShadowDrawLine <
      (generateChildPaint c5Node).findIdx isFillDrawLine ∧
    (generateChildPaint c5Node).findIdx isFillDrawLine <
      (generateChildPaint c5Node).findIdx isStrokeDrawLine ∧
    (generateChildPaint c5Node).findIdx isStrokeDrawLine <
      (generateChildPaint c5Node).length :=
  ⟨(claim_C5_operation_order c5Node (by decide)).1 (by decide) (by decide),
   (claim_C5_operation_order c5Node (by decide)).2 (by decide) (by decide)⟩

end FigmaToJuce


